import Mathlib

/-!
Verification of the model-year filter calculus of the OBDb editor add-on.

The development shallowly embeds the two core algorithms and their shared
predicate:

* `isYearAllowedByFilter` — the `YearFilter` predicate (src/unnamed/part_004,
  lines 15-50);
* `calculateDebugFilter` — the debug-filter synthesizer (src/unnamed/part_004,
  lines 59-169, the revision that gates emitted years on the command's own
  filter);
* `calculateOptimizedFilter` — the production-filter optimizer
  (src/unnamed/part_005).

Modelling conventions:

* TypeScript `number | undefined` fields become `Option Int`.  JavaScript
  numbers in this domain are small integers, so `Int` is exact.
* The `string[]` year inputs are taken as `List Int`: the source applies
  `parseInt` to each element at entry and never uses the strings again.
* `-Infinity` / `+Infinity` sentinel bounds become `Option Int` (`none` is the
  unbounded case); the comparison and clamp helpers below spell out how each
  comparison against a possibly-infinite bound evaluates.
* `new Date().getFullYear()` becomes an explicit `currentYear : Int` argument
  of `calculateOptimizedFilter`.
* JavaScript truthiness tests on optional numeric fields (`!filter.from`)
  become `jsFalsy`, true for `none` and for `some 0`.
* The optimizer's from-only and to-only checks compare
  `JSON.stringify(allowedYears.sort()) === JSON.stringify(expectedYears.sort())`:
  both sides are sorted with the identical total order, so each test holds
  exactly when the two lists are equal as multisets, and both operands are
  strictly ascending and duplicate-free, where multiset equality is plain list
  equality — those two comparisons are embedded as list equality.  The
  from/to-range check, however, compares the sorted allowed list against the
  *unsorted* `rangeYears`, and JavaScript's comparator-free `Array.sort`
  orders numbers by their decimal-string representations; that comparison is
  embedded faithfully as `jsSort allowedYears = rangeYears`, where `jsSort`
  sorts by the decimal-string order (`jsStrLt`).  The two orders agree on
  years of equal digit length (all real model years) and diverge across a
  digit-length boundary such as 9999/10000.
-/

namespace OBDb

/-- `intRange a b = [a, a+1, ..., b]` (empty when `b < a`): the list built by
the source's `for (let year = a; year <= b; year++)` accumulation loops. -/
def intRange (a b : Int) : List Int :=
  (List.range (b + 1 - a).toNat).map (fun (i : Nat) => a + (i : Int))

/-- `Math.min(...list)` for a nonempty list (the empty case never reaches it
in the source; it is given an arbitrary value). -/
def listMin : List Int → Int
  | [] => 0
  | h :: t => List.foldl min h t

/-- `Math.max(...list)` for a nonempty list. -/
def listMax : List Int → Int
  | [] => 0
  | h :: t => List.foldl max h t

/-- JavaScript falsiness of an optional number: `undefined` and `0` are falsy
(`NaN` cannot arise in this integer domain). -/
def jsFalsy : Option Int → Bool
  | none => true
  | some v => v == 0

/-- The record `{ from?: number, to?: number, years?: number[] }` of
src/unnamed/part_004, lines 3-7. -/
structure YearFilter where
  «from» : Option Int
  «to» : Option Int
  years : Option (List Int)
deriving Repr, DecidableEq

/-- The empty filter `{}`. -/
def YearFilter.empty : YearFilter :=
  { «from» := none, «to» := none, years := none }

/-- Modelled from the spec: the source's `GenerationSet` class
(`generationsCore.ts`) is not part of the snapshot; per §3 of the design the
calculus only consumes its two derived scalars `firstYear` and `lastYear`,
either of which may be unbounded (`undefined`, here `none`). -/
structure GenerationSet where
  firstYear : Option Int
  lastYear : Option Int
deriving Repr, DecidableEq

/-- src/unnamed/part_004, lines 15-50: whether `year` is allowed by an
optional `YearFilter`. -/
def isYearAllowedByFilter (year : Int) (filter : Option YearFilter) : Bool :=
  match filter with
  | none => true       -- no filter means all years are allowed
  | some f =>
    let yearsList := f.years.getD []
    let hasYears := f.years.isSome && decide (yearsList.length > 0)
    -- explicit years list wins
    if hasYears && yearsList.contains year then
      true
    else
      match f.«from», f.«to» with
      | some fr, some t =>
        if t < fr then
          -- OR condition: year <= to || year >= from
          decide (year ≤ t) || decide (year ≥ fr)
        else
          -- AND condition: from <= year <= to
          decide (year ≥ fr) && decide (year ≤ t)
      | some fr, none => decide (year ≥ fr)
      | none, some t => decide (year ≤ t)
      | none, none => if hasYears then false else true

/-- `effectiveFirstYear = Math.max(effectiveFirstYear, x)` where `none` stands
for `-Infinity`. -/
def tightenLow : Option Int → Int → Option Int
  | none, x => some x
  | some v, x => some (max v x)

/-- `effectiveLastYear = Math.min(effectiveLastYear, x)` where `none` stands
for `+Infinity`. -/
def tightenHigh : Option Int → Int → Option Int
  | none, x => some x
  | some v, x => some (min v x)

/-- `if (m < bound) m = bound` against a possibly `-Infinity` bound. -/
def clampLow (m : Int) : Option Int → Int
  | none => m
  | some v => if m < v then v else m

/-- `if (m > bound) m = bound` against a possibly `+Infinity` bound. -/
def clampHigh (m : Int) : Option Int → Int
  | none => m
  | some v => if v < m then v else m

/-- `y >= bound` against a possibly `-Infinity` bound. -/
def geLow (y : Int) : Option Int → Bool
  | none => true
  | some v => decide (v ≤ y)

/-- `y <= bound` against a possibly `+Infinity` bound. -/
def leHigh (y : Int) : Option Int → Bool
  | none => true
  | some v => decide (y ≤ v)

/-- src/unnamed/part_004, line 74: the allow-list-only special-case guard
`commandFilter?.years && commandFilter.years.length > 0 && !commandFilter.from
&& !commandFilter.to`. -/
def allowListOnly (commandFilter : Option YearFilter) : Bool :=
  match commandFilter with
  | none => false
  | some cf =>
    cf.years.isSome && decide ((cf.years.getD []).length > 0)
      && jsFalsy cf.«from» && jsFalsy cf.«to»

/-- src/unnamed/part_004, lines 75-90: body of the allow-list-only branch. -/
def debugAllowListBranch (supported : List Int) (cfYears : List Int) : YearFilter :=
  let validSupportedYears := supported.filter (fun year => cfYears.contains year)
  if validSupportedYears.length = cfYears.length then
    YearFilter.empty
  else
    let unsupportedAllowedYears := cfYears.filter (fun year => !supported.contains year)
    if unsupportedAllowedYears.length > 0 then
      { «from» := none, «to» := none, years := some unsupportedAllowedYears }
    else
      YearFilter.empty

/-- src/unnamed/part_004, lines 100-126: the effective `[first, last]` range,
starting from the generation bounds (`none` = unbounded) and tightened by the
command filter's AND-form or single-sided constraints. -/
def effectiveBounds (generationSet : GenerationSet) (commandFilter : Option YearFilter) :
    Option Int × Option Int :=
  let eff := (generationSet.firstYear, generationSet.lastYear)
  match commandFilter with
  | none => eff
  | some cf =>
    match cf.«from», cf.«to» with
    | some fr, some t =>
      if t < fr then
        -- OR condition: cannot constrain to a single range
        eff
      else
        (tightenLow eff.1 fr, tightenHigh eff.2 t)
    | some fr, none => (tightenLow eff.1 fr, eff.2)
    | none, some t => (eff.1, tightenHigh eff.2 t)
    | none, none => eff

/-- src/unnamed/part_004, lines 93-133: `minYear` after clamping into the
effective range. -/
def debugMinYear (supported : List Int) (generationSet : GenerationSet)
    (commandFilter : Option YearFilter) : Int :=
  clampLow (listMin supported) (effectiveBounds generationSet commandFilter).1

/-- src/unnamed/part_004, lines 93-133: `maxYear` after clamping into the
effective range. -/
def debugMaxYear (supported : List Int) (generationSet : GenerationSet)
    (commandFilter : Option YearFilter) : Int :=
  clampHigh (listMax supported) (effectiveBounds generationSet commandFilter).2

/-- src/unnamed/part_004, lines 150-155: the gap-year scan of the general
branch — every year strictly between the clamped bounds that is not supported
and is allowed by the command filter. -/
def debugGapYears (supported : List Int) (generationSet : GenerationSet)
    (commandFilter : Option YearFilter) : List Int :=
  (intRange (debugMinYear supported generationSet commandFilter + 1)
      (debugMaxYear supported generationSet commandFilter - 1)).filter
    (fun year => !supported.contains year && isYearAllowedByFilter year commandFilter)

/-- src/unnamed/part_004, lines 136-168: the general branch of the debug
filter synthesizer. -/
def debugGeneralBranch (supported : List Int) (generationSet : GenerationSet)
    (commandFilter : Option YearFilter) : YearFilter :=
  let eff := effectiveBounds generationSet commandFilter
  let minYear := debugMinYear supported generationSet commandFilter
  let maxYear := debugMaxYear supported generationSet commandFilter
  let toYear := minYear - 1
  let toField :=
    if geLow toYear eff.1 && isYearAllowedByFilter toYear commandFilter then
      some toYear
    else
      none
  let gapYears := debugGapYears supported generationSet commandFilter
  let yearsField := if gapYears.length > 0 then some gapYears else none
  let fromYear := maxYear + 1
  let fromField :=
    if leHigh fromYear eff.2 && isYearAllowedByFilter fromYear commandFilter then
      some fromYear
    else
      none
  { «from» := fromField, «to» := toField, years := yearsField }

/-- src/unnamed/part_004, lines 59-169: the debug-filter synthesizer. -/
def calculateDebugFilter (supportedYears : List Int) (generationSet : GenerationSet)
    (commandFilter : Option YearFilter) : Option YearFilter :=
  if supportedYears.length = 0 then
    none
  else if allowListOnly commandFilter then
    some (debugAllowListBranch supportedYears
      ((commandFilter.getD YearFilter.empty).years.getD []))
  else
    some (debugGeneralBranch supportedYears generationSet commandFilter)

/-- src/unnamed/part_005, line 20: supported years kept only from 1996 on. -/
def optSupported (supportedYears : List Int) : List Int :=
  supportedYears.filter (fun y => decide (y ≥ 1996))

/-- src/unnamed/part_005, line 27: `generationSet.firstYear ?? 2000`. -/
def optFirstYear (generationSet : GenerationSet) : Int :=
  generationSet.firstYear.getD 2000

/-- src/unnamed/part_005, line 28:
`generationSet.lastYear ?? new Date().getFullYear() + 5`. -/
def optLastYear (generationSet : GenerationSet) (currentYear : Int) : Int :=
  generationSet.lastYear.getD (currentYear + 5)

/-- src/unnamed/part_005, lines 31-34: the candidate year universe. -/
def optUniverse (generationSet : GenerationSet) (currentYear : Int) : List Int :=
  intRange (optFirstYear generationSet) (optLastYear generationSet currentYear)

/-- src/unnamed/part_005, lines 39-41: the allowed years — at least 1996 and
either confirmed supported or not confirmed unsupported. -/
def optAllowed (supportedYears unsupportedYears : List Int)
    (generationSet : GenerationSet) (currentYear : Int) : List Int :=
  (optUniverse generationSet currentYear).filter
    (fun year => decide (year ≥ 1996) &&
      ((optSupported supportedYears).contains year || !unsupportedYears.contains year))

/-- The last element of the longest satisfying prefix: models the loops at
src/unnamed/part_005, lines 99-116, which walk a list and remember the last
element satisfying `p`, stopping at the first that does not. -/
def prefixLast (p : Int → Bool) : List Int → Option Int
  | [] => none
  | y :: rest => if p y then some ((prefixLast p rest).getD y) else none

/-- `middleYears.sort((a, b) => a - b)`: numeric ascending sort. -/
def sortInts (l : List Int) : List Int :=
  l.mergeSort (fun a b => decide (a ≤ b))

/-- Strict lexicographic order on most-significant-first decimal digit
strings, as JavaScript's code-unit string comparison computes it: a proper
prefix sorts first, otherwise the first differing digit decides. -/
def digitsLt : List Nat → List Nat → Bool
  | [], [] => false
  | [], _ :: _ => true
  | _ :: _, [] => false
  | a :: as, b :: bs =>
    if a < b then true else if b < a then false else digitsLt as bs

/-- Least-significant-first decimal digits of `n`, computed with explicit
fuel (`n` itself suffices) so that it reduces structurally. -/
def digitsAux : Nat → Nat → List Nat
  | _, 0 => []
  | 0, _ + 1 => []
  | fuel + 1, n + 1 => ((n + 1) % 10) :: digitsAux fuel ((n + 1) / 10)

/-- The decimal digit string of `n`, most significant digit first — the
digits of JavaScript's `String(n)` for a non-negative number. -/
def decimalMSF (n : Nat) : List Nat :=
  if n = 0 then [0] else (digitsAux n n).reverse

/-- `String(a) < String(b)` for integers, by UTF-16 code units: a minus sign
sorts before every digit, two negative numbers compare by the digit strings
of their absolute values, and two non-negative numbers compare their decimal
digit strings lexicographically. -/
def jsStrLt (a b : Int) : Bool :=
  if a < 0 then
    if b < 0 then digitsLt (decimalMSF a.natAbs) (decimalMSF b.natAbs)
    else true
  else
    if b < 0 then false
    else digitsLt (decimalMSF a.toNat) (decimalMSF b.toNat)

/-- `array.sort()` with no comparator: ascending in the decimal-string order
(for the duplicate-free lists the optimizer sorts, the result is the unique
`jsStrLt`-ascending arrangement, exactly as in JavaScript). -/
def jsSort (l : List Int) : List Int :=
  l.mergeSort (fun a b => !jsStrLt b a)

/-- The filter `{ from: v }`. -/
def fromOnly (v : Int) : YearFilter :=
  { «from» := some v, «to» := none, years := none }

/-- The filter `{ to: v }`. -/
def toOnly (v : Int) : YearFilter :=
  { «from» := none, «to» := some v, years := none }

/-- The filter `{ from: a, to: b }`. -/
def rangeFilter (a b : Int) : YearFilter :=
  { «from» := some a, «to» := some b, years := none }

/-- src/unnamed/part_005, lines 53-141: the representation search run once the
allowed set is known to be a nonempty proper subset of the universe. -/
def buildRepr (firstYear lastYear : Int) (allowedYears : List Int) : Option YearFilter :=
  let minAllowed := listMin allowedYears
  let maxAllowed := listMax allowedYears
  -- simple "from" filter
  if allowedYears.all (fun year => decide (year ≥ minAllowed))
      && decide (allowedYears = intRange minAllowed lastYear) then
    some (fromOnly minAllowed)
  -- simple "to" filter
  else if allowedYears.all (fun year => decide (year ≤ maxAllowed))
      && decide (allowedYears = intRange firstYear maxAllowed) then
    some (toOnly maxAllowed)
  -- "from/to" range: the source compares the sorted allowed list against the
  -- UNSORTED rangeYears, so the string-sorted list must coincide with it
  else if decide (jsSort allowedYears = intRange minAllowed maxAllowed) then
    if minAllowed = firstYear ∧ maxAllowed = lastYear then
      some YearFilter.empty
    else
      some (rangeFilter minAllowed maxAllowed)
  else
    -- OR condition: contiguous head, contiguous tail, individual middle years
    let toYear := prefixLast (fun year => allowedYears.contains year)
      (intRange firstYear lastYear)
    let fromYear := prefixLast (fun year => allowedYears.contains year)
      (intRange firstYear lastYear).reverse
    let middleYears := allowedYears.filter (fun year =>
      !(match toYear with | some t => decide (year ≤ t) | none => false) &&
      !(match fromYear with | some fr => decide (year ≥ fr) | none => false))
    let toField :=
      match toYear with
      | some t => if t ≥ firstYear then some t else none
      | none => none
    let fromField :=
      match fromYear with
      | some fr => if fr ≤ lastYear then some fr else none
      | none => none
    let yearsField :=
      if middleYears.length > 0 then some (sortInts middleYears) else none
    if toField = none ∧ fromField = none ∧ yearsField = none then
      none
    else
      some { «from» := fromField, «to» := toField, years := yearsField }

/-- src/unnamed/part_005, lines 15-142: the production-filter optimizer.
`currentYear` makes the source's read of the system clock explicit. -/
def calculateOptimizedFilter (supportedYears unsupportedYears : List Int)
    (generationSet : GenerationSet) (currentYear : Int) : Option YearFilter :=
  let supported := optSupported supportedYears
  if supported.length = 0 ∧ unsupportedYears.length = 0 then
    none
  else
    let allYears := optUniverse generationSet currentYear
    let allowedYears := optAllowed supportedYears unsupportedYears generationSet currentYear
    if allowedYears.length = allYears.length then
      some YearFilter.empty
    else if allowedYears.length = 0 then
      none
    else
      buildRepr (optFirstYear generationSet) (optLastYear generationSet currentYear)
        allowedYears

/-! ### Toolkit: integer ranges -/

theorem mem_intRange {y a b : Int} : y ∈ intRange a b ↔ a ≤ y ∧ y ≤ b := by
  unfold intRange
  simp only [List.mem_map, List.mem_range]
  constructor
  · rintro ⟨i, hi, rfl⟩
    omega
  · rintro ⟨h1, h2⟩
    exact ⟨(y - a).toNat, by omega, by omega⟩

theorem intRange_pairwise (a b : Int) : (intRange a b).Pairwise (· < ·) := by
  unfold intRange
  rw [List.pairwise_map]
  exact (List.pairwise_lt_range _).imp (by intro i j h; omega)

theorem intRange_eq_nil {a b : Int} (h : b < a) : intRange a b = [] := by
  unfold intRange
  have hz : (b + 1 - a).toNat = 0 := by omega
  rw [hz]
  rfl

theorem intRange_cons {a b : Int} (h : a ≤ b) : intRange a b = a :: intRange (a + 1) b := by
  unfold intRange
  have hn : (b + 1 - a).toNat = (b + 1 - (a + 1)).toNat + 1 := by omega
  rw [hn, List.range_succ_eq_map, List.map_cons, List.map_map]
  congr 1
  · omega
  · exact List.map_congr_left (by intro i _; simp [Function.comp]; omega)

theorem intRange_snoc {a b : Int} (h : a ≤ b) : intRange a b = intRange a (b - 1) ++ [b] := by
  unfold intRange
  have hn : (b + 1 - a).toNat = (b - 1 + 1 - a).toNat + 1 := by omega
  rw [hn, List.range_succ, List.map_append, List.map_cons]
  congr 2
  omega

theorem intRange_reverse_cons {a b : Int} (h : a ≤ b) :
    (intRange a b).reverse = b :: (intRange a (b - 1)).reverse := by
  rw [intRange_snoc h]
  simp

theorem length_intRange (a b : Int) : (intRange a b).length = (b + 1 - a).toNat := by
  simp [intRange]

/-! ### Toolkit: `Math.min` / `Math.max` over a list -/

theorem foldl_min_le (t : List Int) : ∀ a : Int, t.foldl min a ≤ a := by
  induction t with
  | nil => intro a; simp
  | cons x xs ih =>
    intro a
    simpa using le_trans (ih (min a x)) (min_le_left a x)

theorem foldl_min_le_of_mem (t : List Int) : ∀ a x : Int, x ∈ t → t.foldl min a ≤ x := by
  induction t with
  | nil => simp
  | cons y ys ih =>
    intro a x hx
    rcases List.mem_cons.mp hx with rfl | hx
    · simpa using le_trans (foldl_min_le ys (min a x)) (min_le_right a x)
    · exact ih _ _ hx

theorem foldl_min_mem (t : List Int) : ∀ a : Int, t.foldl min a = a ∨ t.foldl min a ∈ t := by
  induction t with
  | nil => intro a; left; rfl
  | cons y ys ih =>
    intro a
    rcases ih (min a y) with h | h
    · rcases le_total a y with hay | hya
      · left
        simpa [List.foldl_cons, min_eq_left hay] using h
      · right
        simp only [List.foldl_cons]
        rw [h, min_eq_right hya]
        exact List.mem_cons_self y ys
    · right
      exact List.mem_cons_of_mem y h

theorem foldl_max_le (t : List Int) : ∀ a : Int, a ≤ t.foldl max a := by
  induction t with
  | nil => intro a; simp
  | cons x xs ih =>
    intro a
    simpa using le_trans (le_max_left a x) (ih (max a x))

theorem foldl_max_le_of_mem (t : List Int) : ∀ a x : Int, x ∈ t → x ≤ t.foldl max a := by
  induction t with
  | nil => simp
  | cons y ys ih =>
    intro a x hx
    rcases List.mem_cons.mp hx with rfl | hx
    · simpa using le_trans (le_max_right a x) (foldl_max_le ys (max a x))
    · exact ih _ _ hx

theorem foldl_max_mem (t : List Int) : ∀ a : Int, t.foldl max a = a ∨ t.foldl max a ∈ t := by
  induction t with
  | nil => intro a; left; rfl
  | cons y ys ih =>
    intro a
    rcases ih (max a y) with h | h
    · rcases le_total a y with hay | hya
      · right
        simp only [List.foldl_cons]
        rw [h, max_eq_right hay]
        exact List.mem_cons_self y ys
      · left
        simpa [List.foldl_cons, max_eq_left hya] using h
    · right
      exact List.mem_cons_of_mem y h

theorem listMin_le {l : List Int} (x : Int) (hx : x ∈ l) : listMin l ≤ x := by
  cases l with
  | nil => cases hx
  | cons h t =>
    rcases List.mem_cons.mp hx with rfl | hx
    · exact foldl_min_le t x
    · exact foldl_min_le_of_mem t h x hx

theorem listMin_mem {l : List Int} (h : l ≠ []) : listMin l ∈ l := by
  cases l with
  | nil => exact absurd rfl h
  | cons a t =>
    rcases foldl_min_mem t a with he | he
    · rw [listMin, he]; exact List.mem_cons_self a t
    · exact List.mem_cons_of_mem a he

theorem listMax_le {l : List Int} (x : Int) (hx : x ∈ l) : x ≤ listMax l := by
  cases l with
  | nil => cases hx
  | cons h t =>
    rcases List.mem_cons.mp hx with rfl | hx
    · exact foldl_max_le t x
    · exact foldl_max_le_of_mem t h x hx

theorem listMax_mem {l : List Int} (h : l ≠ []) : listMax l ∈ l := by
  cases l with
  | nil => exact absurd rfl h
  | cons a t =>
    rcases foldl_max_mem t a with he | he
    · rw [listMax, he]; exact List.mem_cons_self a t
    · exact List.mem_cons_of_mem a he

/-! ### Toolkit: strictly ascending lists are determined by their members -/

theorem pairwise_lt_ext : ∀ {l₁ l₂ : List Int}, l₁.Pairwise (· < ·) → l₂.Pairwise (· < ·) →
    (∀ y, y ∈ l₁ ↔ y ∈ l₂) → l₁ = l₂ := by
  intro l₁
  induction l₁ with
  | nil =>
    intro l₂ _ _ hmem
    cases l₂ with
    | nil => rfl
    | cons b t => exact absurd ((hmem b).mpr (List.mem_cons_self b t)) (List.not_mem_nil b)
  | cons a t ih =>
    intro l₂ h₁ h₂ hmem
    cases l₂ with
    | nil => exact absurd ((hmem a).mp (List.mem_cons_self a t)) (List.not_mem_nil a)
    | cons b t₂ =>
      obtain ⟨ha₁, ht₁⟩ := List.pairwise_cons.mp h₁
      obtain ⟨hb₂, ht₂⟩ := List.pairwise_cons.mp h₂
      have hab : a = b := by
        have ha : a ∈ b :: t₂ := (hmem a).mp (List.mem_cons_self a t)
        have hb : b ∈ a :: t := (hmem b).mpr (List.mem_cons_self b t₂)
        rcases List.mem_cons.mp ha with h | h
        · exact h
        rcases List.mem_cons.mp hb with h' | h'
        · exact h'.symm
        have := hb₂ a h
        have := ha₁ b h'
        omega
      subst hab
      have hmem' : ∀ y, y ∈ t ↔ y ∈ t₂ := by
        intro y
        constructor
        · intro hy
          have hay := ha₁ y hy
          rcases List.mem_cons.mp ((hmem y).mp (List.mem_cons_of_mem a hy)) with rfl | h
          · omega
          · exact h
        · intro hy
          have hay := hb₂ y hy
          rcases List.mem_cons.mp ((hmem y).mpr (List.mem_cons_of_mem a hy)) with rfl | h
          · omega
          · exact h
      rw [ih ht₁ ht₂ hmem']

/-! ### Toolkit: the prefix/suffix scans of the optimizer's OR branch -/

theorem prefixLast_none {p : Int → Bool} {a b : Int}
    (hab : a ≤ b) (h : prefixLast p (intRange a b) = none) : p a = false := by
  rw [intRange_cons hab] at h
  cases hpa : p a with
  | false => rfl
  | true => simp [prefixLast, hpa] at h

theorem prefixLast_some {p : Int → Bool} :
    ∀ (n : Nat) (a b : Int), (b + 1 - a).toNat = n →
      ∀ t, prefixLast p (intRange a b) = some t →
        a ≤ t ∧ t ≤ b ∧ (∀ y, a ≤ y → y ≤ t → p y = true) ∧ (t < b → p (t + 1) = false) := by
  intro n
  induction n with
  | zero =>
    intro a b hn t h
    rw [intRange_eq_nil (by omega)] at h
    cases h
  | succ m ih =>
    intro a b hn t h
    have hab : a ≤ b := by omega
    rw [intRange_cons hab] at h
    cases hpa : p a with
    | false => simp [prefixLast, hpa] at h
    | true =>
      simp only [prefixLast, hpa, if_true] at h
      cases hrest : prefixLast p (intRange (a + 1) b) with
      | none =>
        rw [hrest] at h
        simp only [Option.getD_none, Option.some.injEq] at h
        subst h
        refine ⟨le_refl a, hab, ?_, ?_⟩
        · intro y hy1 hy2
          have : y = a := by omega
          subst this
          exact hpa
        · intro hlt
          exact prefixLast_none (by omega) hrest
      | some t' =>
        rw [hrest] at h
        simp only [Option.getD_some, Option.some.injEq] at h
        subst h
        obtain ⟨h1, h2, h3, h4⟩ := ih (a + 1) b (by omega) t' hrest
        refine ⟨by omega, h2, ?_, h4⟩
        intro y hy1 hy2
        rcases eq_or_lt_of_le hy1 with rfl | hlt
        · exact hpa
        · exact h3 y (by omega) hy2

theorem prefixLast_rev_none {p : Int → Bool} {a b : Int}
    (hab : a ≤ b) (h : prefixLast p (intRange a b).reverse = none) : p b = false := by
  rw [intRange_reverse_cons hab] at h
  cases hpb : p b with
  | false => rfl
  | true => simp [prefixLast, hpb] at h

theorem prefixLast_rev_some {p : Int → Bool} :
    ∀ (n : Nat) (a b : Int), (b + 1 - a).toNat = n →
      ∀ t, prefixLast p (intRange a b).reverse = some t →
        a ≤ t ∧ t ≤ b ∧ (∀ y, t ≤ y → y ≤ b → p y = true) ∧ (a < t → p (t - 1) = false) := by
  intro n
  induction n with
  | zero =>
    intro a b hn t h
    rw [intRange_eq_nil (by omega)] at h
    cases h
  | succ m ih =>
    intro a b hn t h
    have hab : a ≤ b := by omega
    rw [intRange_reverse_cons hab] at h
    cases hpb : p b with
    | false => simp [prefixLast, hpb] at h
    | true =>
      simp only [prefixLast, hpb, if_true] at h
      cases hrest : prefixLast p (intRange a (b - 1)).reverse with
      | none =>
        rw [hrest] at h
        simp only [Option.getD_none, Option.some.injEq] at h
        subst h
        refine ⟨hab, le_refl b, ?_, ?_⟩
        · intro y hy1 hy2
          have : y = b := by omega
          subst this
          exact hpb
        · intro hlt
          exact prefixLast_rev_none (a := a) (b := b - 1) (by omega) hrest
      | some t' =>
        rw [hrest] at h
        simp only [Option.getD_some, Option.some.injEq] at h
        subst h
        obtain ⟨h1, h2, h3, h4⟩ := ih a (b - 1) (by omega) t' hrest
        refine ⟨h1, by omega, ?_, h4⟩
        intro y hy1 hy2
        rcases eq_or_lt_of_le (show y ≤ b from hy2) with rfl | hlt
        · exact hpb
        · exact h3 y hy1 (by omega)

/-! ### Toolkit: membership characterizations -/

theorem contains_eq_decide_mem (l : List Int) (y : Int) : l.contains y = decide (y ∈ l) := by
  by_cases h : y ∈ l <;> simp [h]

theorem mem_optSupported {s : List Int} {y : Int} :
    y ∈ optSupported s ↔ y ∈ s ∧ 1996 ≤ y := by
  simp [optSupported, List.mem_filter]

theorem mem_optAllowed {s u : List Int} {gs : GenerationSet} {cy y : Int} :
    y ∈ optAllowed s u gs cy ↔
      optFirstYear gs ≤ y ∧ y ≤ optLastYear gs cy ∧ 1996 ≤ y ∧
        (y ∈ optSupported s ∨ y ∉ u) := by
  simp [optAllowed, optUniverse, List.mem_filter, mem_intRange, contains_eq_decide_mem]
  tauto

theorem optAllowed_pairwise (s u : List Int) (gs : GenerationSet) (cy : Int) :
    (optAllowed s u gs cy).Pairwise (· < ·) :=
  List.Pairwise.filter _ (intRange_pairwise _ _)

theorem optAllowed_sublist (s u : List Int) (gs : GenerationSet) (cy : Int) :
    List.Sublist (optAllowed s u gs cy) (optUniverse gs cy) :=
  List.filter_sublist _

/-! ### Evaluation of the predicate on specific filter shapes -/

theorem allows_none (y : Int) : isYearAllowedByFilter y none = true := rfl

theorem allows_empty (y : Int) :
    isYearAllowedByFilter y (some YearFilter.empty) = true := rfl

theorem allows_fromOnly (y v : Int) :
    isYearAllowedByFilter y (some (fromOnly v)) = decide (v ≤ y) := by
  simp [isYearAllowedByFilter, fromOnly]

theorem allows_toOnly (y v : Int) :
    isYearAllowedByFilter y (some (toOnly v)) = decide (y ≤ v) := by
  simp [isYearAllowedByFilter, toOnly]

theorem allows_rangeFilter_and (y a b : Int) (hab : a ≤ b) :
    isYearAllowedByFilter y (some (rangeFilter a b)) =
      (decide (a ≤ y) && decide (y ≤ b)) := by
  have h1 : ¬(b < a) := not_lt.mpr hab
  simp [isYearAllowedByFilter, rangeFilter, h1, ge_iff_le]

/-! ### The optimizer's representation search, branch by branch -/

theorem all_ge_listMin (A : List Int) : A.all (fun y => decide (y ≥ listMin A)) = true := by
  simp only [List.all_eq_true, decide_eq_true_eq]
  intro y hy
  exact listMin_le y hy

theorem all_le_listMax (A : List Int) : A.all (fun y => decide (y ≤ listMax A)) = true := by
  simp only [List.all_eq_true, decide_eq_true_eq]
  intro y hy
  exact listMax_le y hy

theorem buildRepr_eq_fromOnly {first last : Int} {A : List Int}
    (h : A = intRange (listMin A) last) :
    buildRepr first last A = some (fromOnly (listMin A)) := by
  unfold buildRepr
  simp only [all_ge_listMin, decide_eq_true h, Bool.and_self, if_true]

theorem buildRepr_eq_toOnly {first last : Int} {A : List Int}
    (hna : A ≠ intRange (listMin A) last)
    (h : A = intRange first (listMax A)) :
    buildRepr first last A = some (toOnly (listMax A)) := by
  unfold buildRepr
  rw [if_neg (by simp [decide_eq_false hna]), if_pos]
  rw [all_le_listMax, decide_eq_true h]
  rfl

theorem buildRepr_eq_range {first last : Int} {A : List Int}
    (hna : A ≠ intRange (listMin A) last)
    (hnb : A ≠ intRange first (listMax A))
    (h : jsSort A = intRange (listMin A) (listMax A))
    (hne : ¬(listMin A = first ∧ listMax A = last)) :
    buildRepr first last A = some (rangeFilter (listMin A) (listMax A)) := by
  unfold buildRepr
  rw [if_neg (by simp [decide_eq_false hna]), if_neg (by simp [decide_eq_false hnb]),
    if_pos (by simp [decide_eq_true h]), if_neg hne]


theorem contains_true_iff {l : List Int} {y : Int} : l.contains y = true ↔ y ∈ l := by
  rw [contains_eq_decide_mem]; simp

theorem contains_false_iff {l : List Int} {y : Int} : l.contains y = false ↔ y ∉ l := by
  rw [contains_eq_decide_mem]; simp

theorem sortInts_of_sorted {l : List Int} (h : l.Pairwise (· < ·)) : sortInts l = l := by
  apply List.mergeSort_of_sorted
  exact h.imp (fun hab => by simpa using le_of_lt hab)

theorem eq_of_jsSort_eq {A B : List Int} (hA : A.Pairwise (· < ·))
    (hB : B.Pairwise (· < ·)) (h : jsSort A = B) : A = B := by
  apply pairwise_lt_ext hA hB
  intro y
  rw [← h]
  exact ((List.mergeSort_perm A _).mem_iff).symm

theorem buildRepr_or_exact {first last : Int} {A : List Int}
    (hpair : A.Pairwise (· < ·))
    (hsub : ∀ y ∈ A, first ≤ y ∧ y ≤ last)
    (hne : A ≠ [])
    (hneU : A ≠ intRange first last)
    (hna : A ≠ intRange (listMin A) last)
    (hnb : A ≠ intRange first (listMax A))
    (hnc : ¬(jsSort A = intRange (listMin A) (listMax A))) :
    ∃ f, buildRepr first last A = some f ∧
      ∀ y, first ≤ y → y ≤ last → isYearAllowedByFilter y (some f) = A.contains y := by
  have hfl : first ≤ last := by
    obtain ⟨y, hy⟩ := List.exists_mem_of_ne_nil A hne
    have := hsub y hy
    omega
  have hwit : ∃ u, first ≤ u ∧ u ≤ last ∧ u ∉ A := by
    by_contra hcon
    push_neg at hcon
    apply hneU
    apply pairwise_lt_ext hpair (intRange_pairwise first last)
    intro y
    rw [mem_intRange]
    exact ⟨fun hy => hsub y hy, fun ⟨h1, h2⟩ => hcon y h1 h2⟩
  obtain ⟨u, hu1, hu2, hu3⟩ := hwit
  unfold buildRepr
  rw [if_neg (by simp [decide_eq_false hna]), if_neg (by simp [decide_eq_false hnb]),
    if_neg (by simp [decide_eq_false hnc])]
  simp only []
  cases htY : prefixLast (fun year => A.contains year) (intRange first last) with
  | none =>
    cases hfY : prefixLast (fun year => A.contains year) (intRange first last).reverse with
    | none =>
      simp only [Bool.not_false, Bool.and_self]
      rw [List.filter_true]
      have hM4 : A.length > 0 := List.length_pos.mpr hne
      rw [if_pos hM4, sortInts_of_sorted hpair]
      refine ⟨_, rfl, ?_⟩
      intro y hy1 hy2
      by_cases hyA : y ∈ A
      · have hAy := contains_true_iff.mpr hyA
        simp [isYearAllowedByFilter, hAy, hM4]
      · have hAy := contains_false_iff.mpr hyA
        simp [isYearAllowedByFilter, hAy, hM4]
    | some fr =>
      obtain ⟨hf1, hf2, hf3, hf4⟩ := prefixLast_rev_some ((last + 1 - first).toNat) first last rfl fr hfY
      have hfirstA : first ∉ A := by
        intro hmem
        have := prefixLast_none hfl htY
        rw [contains_true_iff.mpr hmem] at this
        cases this
      simp only [Bool.not_false, Bool.true_and]
      have hM3 : (A.filter (fun year => !decide (year ≥ fr))).length > 0 := by
        rcases Nat.eq_zero_or_pos (A.filter (fun year => !decide (year ≥ fr))).length with hz | hp
        · exfalso
          have hfe : A.filter (fun year => !decide (year ≥ fr)) = [] := List.length_eq_zero.mp hz
          have hallge : ∀ y ∈ A, fr ≤ y := by
            intro y hy
            by_contra hlt
            have : y ∈ A.filter (fun year => !decide (year ≥ fr)) :=
              List.mem_filter.mpr ⟨hy, by simp [ge_iff_le, hlt]⟩
            rw [hfe] at this
            cases this
          have hAeq : A = intRange fr last := by
            apply pairwise_lt_ext hpair (intRange_pairwise fr last)
            intro y
            rw [mem_intRange]
            constructor
            · intro hy
              exact ⟨hallge y hy, (hsub y hy).2⟩
            · rintro ⟨h1, h2⟩
              exact contains_true_iff.mp (hf3 y h1 h2)
          have hfrA : fr ∈ A := contains_true_iff.mp (hf3 fr (le_refl fr) hf2)
          have hminfr : listMin A = fr :=
            le_antisymm (listMin_le fr hfrA) (hallge _ (listMin_mem hne))
          rw [hminfr] at hna
          exact hna hAeq
        · exact hp
      rw [if_pos (show fr ≤ last from hf2), if_pos hM3,
        sortInts_of_sorted (hpair.filter _)]
      refine ⟨_, rfl, ?_⟩
      intro y hy1 hy2
      by_cases hyA : y ∈ A
      · have hAy := contains_true_iff.mpr hyA
        simp [isYearAllowedByFilter, hAy, hM3]
        simp [hyA]
        omega
      · have hAy := contains_false_iff.mpr hyA
        have hnf : ¬(fr ≤ y) := fun h => hyA (contains_true_iff.mp (hf3 y h hy2))
        simp [isYearAllowedByFilter, hAy, hM3, hnf]
  | some t =>
    cases hfY : prefixLast (fun year => A.contains year) (intRange first last).reverse with
    | none =>
      obtain ⟨ht1, ht2, ht3, ht4⟩ := prefixLast_some ((last + 1 - first).toNat) first last rfl t htY
      have hlastA : last ∉ A := by
        intro hmem
        have := prefixLast_rev_none hfl hfY
        rw [contains_true_iff.mpr hmem] at this
        cases this
      simp only [Bool.not_false, Bool.and_true]
      have hM2 : (A.filter (fun year => !decide (year ≤ t))).length > 0 := by
        rcases Nat.eq_zero_or_pos (A.filter (fun year => !decide (year ≤ t))).length with hz | hp
        · exfalso
          have hfe : A.filter (fun year => !decide (year ≤ t)) = [] := List.length_eq_zero.mp hz
          have hallle : ∀ y ∈ A, y ≤ t := by
            intro y hy
            by_contra hgt
            have : y ∈ A.filter (fun year => !decide (year ≤ t)) :=
              List.mem_filter.mpr ⟨hy, by simp [hgt]⟩
            rw [hfe] at this
            cases this
          have hAeq : A = intRange first t := by
            apply pairwise_lt_ext hpair (intRange_pairwise first t)
            intro y
            rw [mem_intRange]
            constructor
            · intro hy
              exact ⟨(hsub y hy).1, hallle y hy⟩
            · rintro ⟨h1, h2⟩
              exact contains_true_iff.mp (ht3 y h1 h2)
          have htA : t ∈ A := contains_true_iff.mp (ht3 t ht1 (le_refl t))
          have hmaxt : listMax A = t :=
            le_antisymm (hallle _ (listMax_mem hne)) (listMax_le t htA)
          rw [hmaxt] at hnb
          exact hnb hAeq
        · exact hp
      rw [if_pos (show t ≥ first from ht1), if_pos hM2,
        sortInts_of_sorted (hpair.filter _)]
      refine ⟨_, rfl, ?_⟩
      intro y hy1 hy2
      by_cases hyA : y ∈ A
      · have hAy := contains_true_iff.mpr hyA
        simp [isYearAllowedByFilter, hAy, hM2]
        simp [hyA]
        omega
      · have hAy := contains_false_iff.mpr hyA
        have hnt : ¬(y ≤ t) := fun h => hyA (contains_true_iff.mp (ht3 y hy1 h))
        simp [isYearAllowedByFilter, hAy, hM2, hnt]
    | some fr =>
      obtain ⟨ht1, ht2, ht3, ht4⟩ := prefixLast_some ((last + 1 - first).toNat) first last rfl t htY
      obtain ⟨hf1, hf2, hf3, hf4⟩ := prefixLast_rev_some ((last + 1 - first).toNat) first last rfl fr hfY
      have htf : t < fr := by
        by_contra hcon
        push_neg at hcon
        rcases le_or_lt u t with hut | hut
        · exact hu3 (contains_true_iff.mp (ht3 u hu1 hut))
        · exact hu3 (contains_true_iff.mp (hf3 u (by omega) hu2))
      simp only []
      rw [if_pos (show t ≥ first from ht1), if_pos (show fr ≤ last from hf2)]
      refine ⟨_, rfl, ?_⟩
      intro y hy1 hy2
      by_cases hM : (A.filter (fun year => !decide (year ≤ t) && !decide (year ≥ fr))).length > 0
      · rw [if_pos hM]
        have hMsort : sortInts (A.filter (fun year => !decide (year ≤ t) && !decide (year ≥ fr)))
            = A.filter (fun year => !decide (year ≤ t) && !decide (year ≥ fr)) :=
          sortInts_of_sorted (hpair.filter _)
        rw [hMsort]
        by_cases hyA : y ∈ A
        · have hAy := contains_true_iff.mpr hyA
          by_cases hyM : y ∈ A.filter (fun year => !decide (year ≤ t) && !decide (year ≥ fr))
          · have hMy := contains_true_iff.mpr hyM
            simp [isYearAllowedByFilter, hMy, hAy, hM]
            rw [if_pos htf]
            simp [hyA]
            omega
          · have hMy := contains_false_iff.mpr hyM
            have hcond : y ≤ t ∨ fr ≤ y := by
              by_contra hc
              push_neg at hc
              refine hyM (List.mem_filter.mpr ⟨hyA, ?_⟩)
              simp
              omega
            simp [isYearAllowedByFilter, hMy, hAy, hM, htf]
            simp [hyA]
            omega
        · have hAy := contains_false_iff.mpr hyA
          have hyM : y ∉ A.filter (fun year => !decide (year ≤ t) && !decide (year ≥ fr)) :=
            fun h => hyA (List.mem_filter.mp h).1
          have hMy := contains_false_iff.mpr hyM
          have hnt : ¬(y ≤ t) := fun h => hyA (contains_true_iff.mp (ht3 y hy1 h))
          have hnf : ¬(fr ≤ y) := fun h => hyA (contains_true_iff.mp (hf3 y h hy2))
          simp [isYearAllowedByFilter, hMy, hAy, hM, htf, hnt, hnf]
      · rw [if_neg hM]
        by_cases hyA : y ∈ A
        · have hAy := contains_true_iff.mpr hyA
          have hcond : y ≤ t ∨ fr ≤ y := by
            by_contra hc
            push_neg at hc
            refine hM ?_
            have : y ∈ A.filter (fun year => !decide (year ≤ t) && !decide (year ≥ fr)) := by
              refine List.mem_filter.mpr ⟨hyA, ?_⟩
              simp
              omega
            have := List.length_pos.mpr (List.ne_nil_of_mem this)
            omega
          simp [isYearAllowedByFilter, hAy, htf]
          simp [hyA]
          exact hcond
        · have hAy := contains_false_iff.mpr hyA
          have hnt : ¬(y ≤ t) := fun h => hyA (contains_true_iff.mp (ht3 y hy1 h))
          have hnf : ¬(fr ≤ y) := fun h => hyA (contains_true_iff.mp (hf3 y h hy2))
          simp [isYearAllowedByFilter, hAy, htf, hnt, hnf]
          exact hyA


theorem listMin_le_listMax {A : List Int} (hne : A ≠ []) : listMin A ≤ listMax A :=
  le_trans (listMin_le _ (listMax_mem hne)) (le_refl _)

theorem buildRepr_exact {first last : Int} {A : List Int}
    (hpair : A.Pairwise (· < ·))
    (hsub : ∀ y ∈ A, first ≤ y ∧ y ≤ last)
    (hne : A ≠ [])
    (hneU : A ≠ intRange first last) :
    ∃ f, buildRepr first last A = some f ∧
      ∀ y, first ≤ y → y ≤ last → isYearAllowedByFilter y (some f) = A.contains y := by
  by_cases hna : A = intRange (listMin A) last
  · refine ⟨_, buildRepr_eq_fromOnly hna, ?_⟩
    intro y hy1 hy2
    rw [allows_fromOnly, contains_eq_decide_mem]
    have hm : y ∈ A ↔ listMin A ≤ y ∧ y ≤ last := by
      conv_lhs => rw [hna]
      exact mem_intRange
    by_cases h1 : listMin A ≤ y <;> simp [h1, hm, hy2]
  · by_cases hnb : A = intRange first (listMax A)
    · refine ⟨_, buildRepr_eq_toOnly hna hnb, ?_⟩
      intro y hy1 hy2
      rw [allows_toOnly, contains_eq_decide_mem]
      have hm : y ∈ A ↔ first ≤ y ∧ y ≤ listMax A := by
        conv_lhs => rw [hnb]
        exact mem_intRange
      by_cases h1 : y ≤ listMax A <;> simp [h1, hm, hy1]
    · by_cases hnc : jsSort A = intRange (listMin A) (listMax A)
      · have hAeq : A = intRange (listMin A) (listMax A) :=
          eq_of_jsSort_eq hpair (intRange_pairwise _ _) hnc
        have hne2 : ¬(listMin A = first ∧ listMax A = last) := by
          rintro ⟨he1, he2⟩
          rw [he1, he2] at hAeq
          exact hneU hAeq
        refine ⟨_, buildRepr_eq_range hna hnb hnc hne2, ?_⟩
        intro y hy1 hy2
        rw [allows_rangeFilter_and _ _ _ (listMin_le_listMax hne), contains_eq_decide_mem]
        have hm : y ∈ A ↔ listMin A ≤ y ∧ y ≤ listMax A := by
          conv_lhs => rw [hAeq]
          exact mem_intRange
        by_cases h1 : listMin A ≤ y <;> by_cases h2 : y ≤ listMax A <;> simp [h1, h2, hm]
      · exact buildRepr_or_exact hpair hsub hne hneU hna hnb hnc

theorem calculateOptimizedFilter_exact {s u : List Int} {gs : GenerationSet} {cy : Int}
    {f : YearFilter} (h : calculateOptimizedFilter s u gs cy = some f) :
    ∀ y, optFirstYear gs ≤ y → y ≤ optLastYear gs cy →
      isYearAllowedByFilter y (some f) = (optAllowed s u gs cy).contains y := by
  unfold calculateOptimizedFilter at h
  by_cases h0 : (optSupported s).length = 0 ∧ u.length = 0
  · rw [if_pos h0] at h
    cases h
  · rw [if_neg h0] at h
    by_cases h1 : (optAllowed s u gs cy).length = (optUniverse gs cy).length
    · rw [if_pos h1] at h
      have hAU : optAllowed s u gs cy = optUniverse gs cy :=
        (optAllowed_sublist s u gs cy).eq_of_length h1
      obtain rfl : YearFilter.empty = f := Option.some.inj h
      intro y hy1 hy2
      rw [allows_empty, hAU, contains_eq_decide_mem]
      simp [optUniverse, mem_intRange, hy1, hy2]
    · rw [if_neg h1] at h
      by_cases h2 : (optAllowed s u gs cy).length = 0
      · rw [if_pos h2] at h
        cases h
      · rw [if_neg h2] at h
        have hne : optAllowed s u gs cy ≠ [] := by
          intro hc
          rw [hc] at h2
          exact h2 rfl
        have hneU : optAllowed s u gs cy ≠ optUniverse gs cy := by
          intro hc
          rw [hc] at h1
          exact h1 rfl
        have hsub : ∀ y ∈ optAllowed s u gs cy,
            optFirstYear gs ≤ y ∧ y ≤ optLastYear gs cy := by
          intro y hy
          have := (optAllowed_sublist s u gs cy).subset hy
          rw [optUniverse, mem_intRange] at this
          exact this
        obtain ⟨f', hf', hex⟩ :=
          buildRepr_exact (optAllowed_pairwise s u gs cy) hsub hne hneU
        rw [hf'] at h
        obtain rfl : f' = f := Option.some.inj h
        exact hex


/-- Modelled from the spec (§4.1): the `allows` predicate as worded by the
spec's precedence list — membership in `years` wins; then the `from`/`to`
combinations; a lone non-empty `years` list rejects everything else;
no constraints at all means every year is allowed. -/
def specAllows (year : Int) (filter : Option YearFilter) : Bool :=
  match filter with
  | none => true
  | some f =>
    if (f.years.getD []).contains year then
      true
    else
      match f.«from», f.«to» with
      | some fr, some t =>
        if t < fr then decide (year ≤ t) || decide (year ≥ fr)
        else decide (fr ≤ year) && decide (year ≤ t)
      | some fr, none => decide (year ≥ fr)
      | none, some t => decide (year ≤ t)
      | none, none => decide ((f.years.getD []).length = 0)

/-- Claim C1: for every year and every optional filter, `isYearAllowedByFilter`
returns exactly the value prescribed by the spec's precedence (membership in
`years` wins; OR semantics when `to < from`, AND semantics when `from <= to`;
single-sided comparisons otherwise; `false` when only a non-empty `years` list
is present; `true` when unconstrained). -/
theorem claim_C1_allows_matches_spec :
    ∀ (year : Int) (filter : Option YearFilter),
      isYearAllowedByFilter year filter = specAllows year filter := by
  intro year filter
  cases filter with
  | none => rfl
  | some f =>
    obtain ⟨fr, t, ys⟩ := f
    cases ys with
    | none =>
      cases fr <;> cases t <;> simp [isYearAllowedByFilter, specAllows]
    | some l =>
      cases l with
      | nil =>
        cases fr <;> cases t <;> simp [isYearAllowedByFilter, specAllows]
      | cons a as =>
        cases fr <;> cases t <;> simp [isYearAllowedByFilter, specAllows]

set_option maxRecDepth 8000 in
/-- Claim C2 counterexample: the year 1995 is confirmed supported, yet the
optimizer (which discards supported years below the 1996 protocol floor)
returns `{ from: 1997 }`, which does not allow 1995. -/
theorem claim_C2_counterexample :
    (1995 : Int) ∈ ([1995, 2020] : List Int) ∧
    isYearAllowedByFilter 1995
      (calculateOptimizedFilter [1995, 2020] [1996] ⟨some 1996, some 2025⟩ 2025) = false := by
  refine ⟨by decide, by decide⟩

/-- Claim C2 (amended): every confirmed-supported year that is at least 1996
and lies in the candidate year universe is allowed by the filter the optimizer
returns (a `none` result constrains nothing). -/
theorem claim_C2_amended {s u : List Int} {gs : GenerationSet} {cy y : Int}
    (hy : y ∈ s) (h1996 : 1996 ≤ y)
    (hlo : optFirstYear gs ≤ y) (hhi : y ≤ optLastYear gs cy) :
    isYearAllowedByFilter y (calculateOptimizedFilter s u gs cy) = true := by
  cases h : calculateOptimizedFilter s u gs cy with
  | none => rfl
  | some f =>
    rw [calculateOptimizedFilter_exact h y hlo hhi]
    rw [contains_true_iff, mem_optAllowed]
    exact ⟨hlo, hhi, h1996, Or.inl (mem_optSupported.mpr ⟨hy, h1996⟩)⟩

/-- Witness for the amended C2 at a concrete input. -/
theorem claim_C2_witness :
    (2020 : Int) ∈ ([2018, 2019, 2020, 2021, 2022, 2023, 2024] : List Int) ∧
    isYearAllowedByFilter 2020
      (calculateOptimizedFilter [2018, 2019, 2020, 2021, 2022, 2023, 2024]
        [2007, 2008, 2009, 2010, 2011, 2012, 2013, 2014, 2015, 2016, 2017]
        ⟨some 2007, some 2030⟩ 2025) = true :=
  ⟨by decide, claim_C2_amended (by decide) (by decide) (by decide) (by decide)⟩

set_option maxRecDepth 8000 in
/-- Claim C5 counterexample: on the spec's scenario 6 input (no confirmed
unsupported years at all) the optimizer does not return `{ from: 2018 }`. -/
theorem claim_C5_counterexample :
    calculateOptimizedFilter [2018, 2019, 2020, 2021, 2022, 2023, 2024] []
      ⟨some 2007, some 2030⟩ 2025 ≠ some (fromOnly 2018) := by
  decide

set_option maxRecDepth 8000 in
/-- Claim C5 (amended): with an empty unsupported set every universe year is
allowed, so the optimizer returns `{}`; the output `{ from: 2018 }` is produced
when the years 2007 through 2017 are confirmed unsupported. -/
theorem claim_C5_amended :
    calculateOptimizedFilter [2018, 2019, 2020, 2021, 2022, 2023, 2024] []
      ⟨some 2007, some 2030⟩ 2025 = some YearFilter.empty ∧
    calculateOptimizedFilter [2018, 2019, 2020, 2021, 2022, 2023, 2024]
      [2007, 2008, 2009, 2010, 2011, 2012, 2013, 2014, 2015, 2016, 2017]
      ⟨some 2007, some 2030⟩ 2025 = some (fromOnly 2018) :=
  ⟨by decide, by decide⟩

/-- Claim C7: with at least one evidence year, every year below 1996 that lies
in the candidate year universe is disallowed by any non-null filter the
optimizer returns. -/
theorem claim_C7_protocol_floor {s u : List Int} {gs : GenerationSet} {cy y : Int}
    {f : YearFilter}
    (_hev : s ≠ [] ∨ u ≠ [])
    (h : calculateOptimizedFilter s u gs cy = some f)
    (hy : y < 1996) (hlo : optFirstYear gs ≤ y) (hhi : y ≤ optLastYear gs cy) :
    isYearAllowedByFilter y (some f) = false := by
  rw [calculateOptimizedFilter_exact h y hlo hhi]
  rw [contains_false_iff]
  intro hmem
  have := (mem_optAllowed.mp hmem).2.2.1
  omega

unseal List.merge List.mergeSort in
set_option maxRecDepth 8000 in
/-- Witness for C7 at a concrete input whose universe reaches below 1996. -/
theorem claim_C7_witness :
    (([2000] : List Int) ≠ [] ∨ ([1998] : List Int) ≠ []) ∧
    calculateOptimizedFilter [2000] [1998] ⟨some 1990, some 2005⟩ 2025 =
      some { «from» := some 1999, «to» := none, years := some [1996, 1997] } ∧
    isYearAllowedByFilter 1990
      (some { «from» := some 1999, «to» := none, years := some [1996, 1997] }) = false :=
  ⟨Or.inl (by decide), by decide,
    @claim_C7_protocol_floor [2000] [1998] ⟨some 1990, some 2005⟩ 2025 1990
      { «from» := some 1999, «to» := none, years := some [1996, 1997] }
      (Or.inl (by decide)) (by decide) (by decide) (by decide) (by decide)⟩

unseal List.merge List.mergeSort in
set_option maxRecDepth 8000 in
/-- Claim C9 counterexample: `calculateOptimizedFilter` reads the system clock
when `generationSet.lastYear` is absent, so identical inputs give different
outputs in different clock years — here `{}` in 2023 but
`{ to: 2028, from: 2030 }` in 2025. -/
theorem claim_C9_counterexample :
    calculateOptimizedFilter [2030] [2029] ⟨some 2028, none⟩ 2023 ≠
      calculateOptimizedFilter [2030] [2029] ⟨some 2028, none⟩ 2025 := by
  decide

/-- Claim C9 (amended): both functions are deterministic in their explicit
arguments; `calculateDebugFilter` never consults the clock, and
`calculateOptimizedFilter` is clock-independent whenever
`generationSet.lastYear` is present. -/
theorem claim_C9_amended (s u : List Int) (gs : GenerationSet) (cy₁ cy₂ : Int)
    (L : Int) (hL : gs.lastYear = some L) :
    calculateOptimizedFilter s u gs cy₁ = calculateOptimizedFilter s u gs cy₂ := by
  have hlast : ∀ cy : Int, optLastYear gs cy = L := by
    intro cy
    rw [optLastYear, hL]
    rfl
  unfold calculateOptimizedFilter
  rw [show optUniverse gs cy₁ = optUniverse gs cy₂ by
      unfold optUniverse; rw [hlast, hlast],
    show optAllowed s u gs cy₁ = optAllowed s u gs cy₂ by
      unfold optAllowed optUniverse; rw [hlast, hlast],
    show optLastYear gs cy₁ = optLastYear gs cy₂ by rw [hlast, hlast]]

/-- Witness for the amended C9 at a concrete input with a bounded last year. -/
theorem claim_C9_witness :
    calculateOptimizedFilter [2018] [] ⟨some 2007, some 2030⟩ 2020 =
      calculateOptimizedFilter [2018] [] ⟨some 2007, some 2030⟩ 2030 :=
  claim_C9_amended [2018] [] ⟨some 2007, some 2030⟩ 2020 2030 2030 rfl


theorem mem_debugGapYears {supported : List Int} {gs : GenerationSet}
    {cf : Option YearFilter} {y : Int} :
    y ∈ debugGapYears supported gs cf ↔
      (debugMinYear supported gs cf + 1 ≤ y ∧ y ≤ debugMaxYear supported gs cf - 1) ∧
        y ∉ supported ∧ isYearAllowedByFilter y cf = true := by
  unfold debugGapYears
  rw [List.mem_filter, mem_intRange]
  simp [contains_eq_decide_mem]

/-- Claim C3: once the general range branch of `calculateDebugFilter` is taken
(non-empty supported years, not the allow-list-only special case), a year
strictly between the clamped minimum and maximum supported years belongs to
the returned filter's `years` list exactly when it is not confirmed supported
and is allowed by the command's own filter; in particular a year the command
filter disallows is never emitted. -/
theorem claim_C3_gap_years {supported : List Int} {gs : GenerationSet}
    {cf : Option YearFilter}
    (hne : supported ≠ [])
    (hgen : allowListOnly cf = false) :
    ∃ f, calculateDebugFilter supported gs cf = some f ∧
      ∀ y, debugMinYear supported gs cf < y → y < debugMaxYear supported gs cf →
        (y ∈ f.years.getD [] ↔
          y ∉ supported ∧ isYearAllowedByFilter y cf = true) := by
  refine ⟨debugGeneralBranch supported gs cf, ?_, ?_⟩
  · unfold calculateDebugFilter
    rw [if_neg (by simpa using hne), if_neg (by simp [hgen])]
  · intro y hlo hhi
    show y ∈ (debugGeneralBranch supported gs cf).years.getD [] ↔ _
    unfold debugGeneralBranch
    simp only []
    by_cases hg : (debugGapYears supported gs cf).length > 0
    · rw [if_pos hg]
      rw [Option.getD_some, mem_debugGapYears]
      exact ⟨fun h => h.2, fun h => ⟨⟨by omega, by omega⟩, h⟩⟩
    · rw [if_neg hg]
      simp only [Option.getD_none, List.not_mem_nil, false_iff]
      intro hmem
      have : y ∈ debugGapYears supported gs cf :=
        mem_debugGapYears.mpr ⟨⟨by omega, by omega⟩, hmem⟩
      have := List.length_pos.mpr (List.ne_nil_of_mem this)
      omega

/-- Witness for C3 at the repository's gap-year test fixture. -/
theorem claim_C3_witness :
    ∃ f, calculateDebugFilter [2018, 2019, 2020, 2023, 2024, 2025]
        ⟨some 2007, some 2030⟩ (some ⟨some 2018, none, none⟩) = some f ∧
      ∀ y,
        debugMinYear [2018, 2019, 2020, 2023, 2024, 2025] ⟨some 2007, some 2030⟩
            (some ⟨some 2018, none, none⟩) < y →
        y < debugMaxYear [2018, 2019, 2020, 2023, 2024, 2025] ⟨some 2007, some 2030⟩
            (some ⟨some 2018, none, none⟩) →
        (y ∈ f.years.getD [] ↔
          y ∉ [2018, 2019, 2020, 2023, 2024, 2025] ∧
            isYearAllowedByFilter y (some ⟨some 2018, none, none⟩) = true) :=
  claim_C3_gap_years (by decide) (by decide)


theorem nodup_length_le_of_subset {l₁ l₂ : List Int} (h1 : l₁.Nodup)
    (h2 : l₂.Nodup) (hsub : ∀ y ∈ l₁, y ∈ l₂) : l₁.length ≤ l₂.length := by
  have hfin : l₁.toFinset ⊆ l₂.toFinset := by
    intro a ha
    rw [List.mem_toFinset] at ha ⊢
    exact hsub a ha
  have := Finset.card_le_card hfin
  rwa [List.toFinset_card_of_nodup h1, List.toFinset_card_of_nodup h2] at this

theorem valid_length_eq_iff {supported ys : List Int} (hnodupS : supported.Nodup)
    (hnodupY : ys.Nodup) :
    (supported.filter (fun year => ys.contains year)).length = ys.length ↔
      ∀ y ∈ ys, y ∈ supported := by
  constructor
  · intro hlen
    by_contra hc
    push_neg at hc
    obtain ⟨y₀, hy₀, hy₀s⟩ := hc
    have hvn : (supported.filter (fun year => ys.contains year)).Nodup :=
      hnodupS.filter _
    have hfin : (supported.filter (fun year => ys.contains year)).toFinset ⊆
        ys.toFinset.erase y₀ := by
      intro a ha
      rw [List.mem_toFinset, List.mem_filter] at ha
      rw [Finset.mem_erase, List.mem_toFinset]
      refine ⟨?_, contains_true_iff.mp ha.2⟩
      rintro rfl
      exact hy₀s ha.1
    have hcard := Finset.card_le_card hfin
    rw [List.toFinset_card_of_nodup hvn] at hcard
    have hy₀fin : y₀ ∈ ys.toFinset := List.mem_toFinset.mpr hy₀
    have := Finset.card_erase_of_mem hy₀fin
    rw [List.toFinset_card_of_nodup hnodupY] at this
    have hpos : 0 < ys.length := List.length_pos.mpr (List.ne_nil_of_mem hy₀)
    omega
  · intro hall
    have hvn : (supported.filter (fun year => ys.contains year)).Nodup :=
      hnodupS.filter _
    apply le_antisymm
    · apply nodup_length_le_of_subset hvn hnodupY
      intro y hy
      exact contains_true_iff.mp (List.mem_filter.mp hy).2
    · apply nodup_length_le_of_subset hnodupY hvn
      intro y hy
      exact List.mem_filter.mpr ⟨hall y hy, contains_true_iff.mpr hy⟩

/-- Claim C6: when the command filter carries a non-empty `years` list and no
`from`/`to`, `calculateDebugFilter` resolves entirely inside the allow-list
branch: it returns `{}` when every listed year is confirmed supported and
otherwise a filter whose only field is `years`, holding the listed years that
are not confirmed supported. -/
theorem claim_C6_allow_list_branch {supported : List Int} {gs : GenerationSet}
    {c : YearFilter} {ys : List Int}
    (hne : supported ≠ []) (hnodupS : supported.Nodup)
    (hys : c.years = some ys) (hysne : ys ≠ []) (hnodupY : ys.Nodup)
    (hfrom : c.«from» = none) (hto : c.«to» = none) :
    calculateDebugFilter supported gs (some c) =
      (if ∀ y ∈ ys, y ∈ supported then some YearFilter.empty
       else some { «from» := none, «to» := none,
                   years := some (ys.filter (fun y => !supported.contains y)) }) := by
  have hguard : allowListOnly (some c) = true := by
    simp [allowListOnly, hys, hfrom, hto, jsFalsy]
    exact List.length_pos.mpr hysne
  unfold calculateDebugFilter
  rw [if_neg (by simpa using hne), if_pos hguard]
  have hysd : (((some c).getD YearFilter.empty).years.getD []) = ys := by
    simp [hys]
  rw [hysd]
  unfold debugAllowListBranch
  by_cases hall : ∀ y ∈ ys, y ∈ supported
  · rw [if_pos ((valid_length_eq_iff hnodupS hnodupY).mpr hall), if_pos hall]
  · rw [if_neg (fun hlen => hall ((valid_length_eq_iff hnodupS hnodupY).mp hlen)),
      if_neg hall]
    have hy0 : ∃ y₀ ∈ ys, y₀ ∉ supported := by
      by_contra hc
      push_neg at hc
      exact hall hc
    obtain ⟨y₀, hy₀, hy₀s⟩ := hy0
    have hmem : y₀ ∈ ys.filter (fun y => !supported.contains y) :=
      List.mem_filter.mpr ⟨hy₀, by simp [contains_eq_decide_mem, hy₀s]⟩
    rw [if_pos (List.length_pos.mpr (List.ne_nil_of_mem hmem))]

/-- Witness for C6 at the repository's test fixture 9. -/
theorem claim_C6_witness :
    calculateDebugFilter [2008] ⟨some 2005, some 2010⟩
        (some ⟨none, none, some [2007, 2009]⟩) =
      (if ∀ y ∈ ([2007, 2009] : List Int), y ∈ ([2008] : List Int) then
        some YearFilter.empty
       else some { «from» := none, «to» := none,
                   years := some (([2007, 2009] : List Int).filter
                     (fun y => !([2008] : List Int).contains y)) }) :=
  claim_C6_allow_list_branch (by decide) (by decide) rfl (by decide) (by decide) rfl rfl

/-- A filter rejects a year when the year avoids its `years` list, sits below
its `from`, sits above its `to`, and the filter is not the unconstrained `{}`
(nor carries an empty `years` list as its only field, which the synthesizers
never emit). -/
theorem allows_false_of_fields {y : Int} {f : YearFilter}
    (hyears : ∀ l, f.years = some l → l ≠ [] ∧ y ∉ l)
    (hfrom : ∀ v, f.«from» = some v → y < v)
    (hto : ∀ v, f.«to» = some v → v < y)
    (hne : f ≠ YearFilter.empty) :
    isYearAllowedByFilter y (some f) = false := by
  obtain ⟨fr, t, ys⟩ := f
  cases ys with
  | none =>
    cases fr with
    | none =>
      cases t with
      | none => exact absurd rfl hne
      | some w =>
        have := hto w rfl
        simp [isYearAllowedByFilter]
        omega
    | some v =>
      have hv := hfrom v rfl
      cases t with
      | none =>
        simp [isYearAllowedByFilter, ge_iff_le]
        omega
      | some w =>
        have hw := hto w rfl
        simp only [isYearAllowedByFilter]
        by_cases hc : w < v
        · rw [if_pos hc]
          simp [ge_iff_le]
          omega
        · rw [if_neg hc]
          simp [ge_iff_le]
          omega
  | some l =>
    obtain ⟨hlne, hyl⟩ := hyears l rfl
    have hcont : l.contains y = false := contains_false_iff.mpr hyl
    have hlen : l.length > 0 := List.length_pos.mpr hlne
    cases fr with
    | none =>
      cases t with
      | none => simp [isYearAllowedByFilter, hcont, hlen, hyl]
      | some w =>
        have := hto w rfl
        simp [isYearAllowedByFilter, hcont, hlen, hyl]
        omega
    | some v =>
      have hv := hfrom v rfl
      cases t with
      | none =>
        simp [isYearAllowedByFilter, hcont, hlen, hyl, ge_iff_le]
        omega
      | some w =>
        have hw := hto w rfl
        simp only [isYearAllowedByFilter]
        by_cases hc : w < v
        · rw [if_pos hc]
          simp [hcont, hlen, hyl, ge_iff_le]
          omega
        · rw [if_neg hc]
          simp [hcont, hlen, hyl, ge_iff_le]
          omega


/-- Claim C10 (implicit): when `calculateDebugFilter` returns a filter other
than `null` and `{}`, and every confirmed-supported year lies inside the
effective eligible range, the returned debug filter allows none of the
confirmed-supported years — the debug filter and the supported set are
disjoint. -/
theorem claim_C10_debug_disjoint {supported : List Int} {gs : GenerationSet}
    {cf : Option YearFilter} {f : YearFilter}
    (h : calculateDebugFilter supported gs cf = some f)
    (hfne : f ≠ YearFilter.empty)
    (hrange : ∀ y ∈ supported,
      geLow y (effectiveBounds gs cf).1 = true ∧
        leHigh y (effectiveBounds gs cf).2 = true) :
    ∀ y ∈ supported, isYearAllowedByFilter y (some f) = false := by
  intro y hy
  unfold calculateDebugFilter at h
  by_cases h0 : supported.length = 0
  · rw [if_pos h0] at h
    cases h
  · rw [if_neg h0] at h
    have hsne : supported ≠ [] := by
      intro hc
      rw [hc] at h0
      exact h0 rfl
    by_cases hb : allowListOnly cf = true
    · rw [if_pos hb] at h
      obtain rfl := Option.some.inj h
      unfold debugAllowListBranch
      unfold debugAllowListBranch at hfne
      by_cases h1 : ((supported.filter (fun year =>
          ((cf.getD YearFilter.empty).years.getD []).contains year)).length =
          ((cf.getD YearFilter.empty).years.getD []).length)
      · rw [if_pos h1] at hfne
        exact absurd rfl hfne
      · rw [if_neg h1] at hfne
        rw [if_neg h1]
        by_cases h2 : (((cf.getD YearFilter.empty).years.getD []).filter
            (fun year => !supported.contains year)).length > 0
        · rw [if_pos h2] at hfne ⊢
          apply allows_false_of_fields
          · intro l hl
            obtain rfl := (Option.some.inj hl).symm
            constructor
            · intro hc
              rw [hc] at h2
              simp at h2
            · intro hmem
              have := (List.mem_filter.mp hmem).2
              simp [contains_eq_decide_mem] at this
              exact this hy
          · intro v hv
            cases hv
          · intro v hv
            cases hv
          · exact hfne
        · rw [if_neg h2] at hfne
          exact absurd rfl hfne
    · rw [if_neg hb] at h
      obtain rfl := Option.some.inj h
      have hmin : debugMinYear supported gs cf = listMin supported := by
        unfold debugMinYear clampLow
        cases heff : (effectiveBounds gs cf).1 with
        | none => rfl
        | some v =>
          have hvle : v ≤ listMin supported := by
            have := (hrange _ (listMin_mem hsne)).1
            rw [heff] at this
            simpa [geLow] using this
          simp only []
          rw [if_neg (by omega)]
      have hmax : debugMaxYear supported gs cf = listMax supported := by
        unfold debugMaxYear clampHigh
        cases heff : (effectiveBounds gs cf).2 with
        | none => rfl
        | some v =>
          have hvle : listMax supported ≤ v := by
            have := (hrange _ (listMax_mem hsne)).2
            rw [heff] at this
            simpa [leHigh] using this
          simp only []
          rw [if_neg (by omega)]
      have hymin : listMin supported ≤ y := listMin_le y hy
      have hymax : y ≤ listMax supported := listMax_le y hy
      unfold debugGeneralBranch
      unfold debugGeneralBranch at hfne
      apply allows_false_of_fields
      · intro l hl
        simp only [] at hl
        by_cases hg : (debugGapYears supported gs cf).length > 0
        · rw [if_pos hg] at hl
          obtain rfl := (Option.some.inj hl).symm
          constructor
          · intro hc
            rw [hc] at hg
            simp at hg
          · intro hmem
            have := (mem_debugGapYears.mp hmem).2.1
            exact this hy
        · rw [if_neg hg] at hl
          cases hl
      · intro v hv
        simp only [] at hv
        by_cases hc : (leHigh (debugMaxYear supported gs cf + 1)
              (effectiveBounds gs cf).2 &&
            isYearAllowedByFilter (debugMaxYear supported gs cf + 1) cf) = true
        · rw [if_pos hc] at hv
          obtain rfl := (Option.some.inj hv).symm
          rw [hmax]
          omega
        · rw [if_neg hc] at hv
          cases hv
      · intro v hv
        simp only [] at hv
        by_cases hc : (geLow (debugMinYear supported gs cf - 1)
              (effectiveBounds gs cf).1 &&
            isYearAllowedByFilter (debugMinYear supported gs cf - 1) cf) = true
        · rw [if_pos hc] at hv
          obtain rfl := (Option.some.inj hv).symm
          rw [hmin]
          omega
        · rw [if_neg hc] at hv
          cases hv
      · exact hfne

/-- Witness for C10 at a concrete input. -/
theorem claim_C10_witness :
    calculateDebugFilter [2020] ⟨some 2007, some 2030⟩ none =
      some { «from» := some 2021, «to» := some 2019, years := none } ∧
    ∀ y ∈ ([2020] : List Int),
      isYearAllowedByFilter y
        (some { «from» := some 2021, «to» := some 2019, years := none }) = false :=
  ⟨by decide,
    @claim_C10_debug_disjoint [2020] ⟨some 2007, some 2030⟩ none
      { «from» := some 2021, «to» := some 2019, years := none }
      (by decide) (by decide) (by decide)⟩


theorem buildRepr_years_pairwise {first last : Int} {A : List Int} {f : YearFilter}
    {l : List Int} (hA : A.Pairwise (· < ·))
    (h : buildRepr first last A = some f) (hl : f.years = some l) :
    l.Pairwise (· < ·) := by
  unfold buildRepr at h
  simp only [] at h
  split at h
  · obtain rfl := (Option.some.inj h).symm
    cases hl
  · split at h
    · obtain rfl := (Option.some.inj h).symm
      cases hl
    · split at h
      · split at h
        · obtain rfl := (Option.some.inj h).symm
          cases hl
        · obtain rfl := (Option.some.inj h).symm
          cases hl
      · split at h
        · split at h
          · cases h
          · obtain rfl := (Option.some.inj h).symm
            obtain rfl := (Option.some.inj hl).symm
            rw [sortInts_of_sorted (hA.filter _)]
            exact hA.filter _
        · split at h
          · cases h
          · obtain rfl := (Option.some.inj h).symm
            cases hl

theorem calculateDebugFilter_years_pairwise {s : List Int} {gs : GenerationSet}
    {cf : Option YearFilter} {f : YearFilter} {l : List Int}
    (hcf : ((cf.getD YearFilter.empty).years.getD []).Pairwise (· < ·))
    (h : calculateDebugFilter s gs cf = some f) (hl : f.years = some l) :
    l.Pairwise (· < ·) := by
  unfold calculateDebugFilter at h
  split at h
  · cases h
  · split at h
    · obtain rfl := (Option.some.inj h).symm
      unfold debugAllowListBranch at hl
      simp only [] at hl
      split at hl
      · cases hl
      · split at hl
        · obtain rfl := (Option.some.inj hl).symm
          exact hcf.filter _
        · cases hl
    · obtain rfl := (Option.some.inj h).symm
      unfold debugGeneralBranch at hl
      simp only [] at hl
      split at hl
      · obtain rfl := (Option.some.inj hl).symm
        exact (intRange_pairwise _ _).filter _
      · cases hl

/-- Claim C8 counterexample: the allow-list branch echoes the command filter's
`years` list in input order, so an unsorted input `years: [2009, 2007]` is
emitted unsorted. -/
theorem claim_C8_counterexample :
    ¬ (((calculateDebugFilter [2005] ⟨some 2005, some 2010⟩
          (some ⟨none, none, some [2009, 2007]⟩)).getD
        YearFilter.empty).years.getD []).Pairwise (· < ·) := by
  decide

/-- Claim C8 (amended): every `years` list in a filter returned by
`calculateOptimizedFilter` is strictly ascending with no duplicates, and
every `years` list in a filter returned by `calculateDebugFilter` is strictly
ascending with no duplicates provided the command filter's own `years` list
is (the allow-list branch preserves the input list's order; all other emitted
lists are ascending unconditionally). -/
theorem claim_C8_amended :
    (∀ (s u : List Int) (gs : GenerationSet) (cy : Int) (f : YearFilter)
        (l : List Int),
        calculateOptimizedFilter s u gs cy = some f → f.years = some l →
          l.Pairwise (· < ·)) ∧
    (∀ (s : List Int) (gs : GenerationSet) (cf : Option YearFilter)
        (f : YearFilter) (l : List Int),
        ((cf.getD YearFilter.empty).years.getD []).Pairwise (· < ·) →
        calculateDebugFilter s gs cf = some f → f.years = some l →
          l.Pairwise (· < ·)) := by
  constructor
  · intro s u gs cy f l h hl
    unfold calculateOptimizedFilter at h
    simp only [] at h
    split at h
    · cases h
    · split at h
      · obtain rfl := (Option.some.inj h).symm
        cases hl
      · split at h
        · cases h
        · exact buildRepr_years_pairwise (optAllowed_pairwise s u gs cy) h hl
  · intro s gs cf f l hcf h hl
    exact calculateDebugFilter_years_pairwise hcf h hl

unseal List.merge List.mergeSort in
set_option maxRecDepth 8000 in
/-- Witness for the amended C8: the gap list of the repository's test
fixture 5 and the middle list of the optimizer's OR form are both strictly
ascending. -/
theorem claim_C8_witness :
    ([2021, 2022] : List Int).Pairwise (· < ·) ∧
    ([1996, 1997] : List Int).Pairwise (· < ·) :=
  ⟨claim_C8_amended.2 [2018, 2019, 2020, 2023, 2024, 2025] ⟨some 2007, some 2030⟩
      (some ⟨some 2018, none, none⟩) ⟨some 2026, none, some [2021, 2022]⟩
      [2021, 2022] (by decide) (by decide) rfl,
    claim_C8_amended.1 [2000] [1998] ⟨some 1990, some 2005⟩ 2025
      ⟨some 1999, none, some [1996, 1997]⟩ [1996, 1997] (by decide) rfl⟩


/-! ### The decimal-string order behind the comparator-free JS sort -/

/-- Value of a least-significant-first digit list. -/
def valLSF : List Nat → Nat
  | [] => 0
  | d :: ds => d + 10 * valLSF ds

/-- Value of a most-significant-first digit list. -/
def valMSF : List Nat → Nat
  | [] => 0
  | d :: ds => d * 10 ^ ds.length + valMSF ds

theorem valMSF_append_singleton (xs : List Nat) (d : Nat) :
    valMSF (xs ++ [d]) = valMSF xs * 10 + d := by
  induction xs with
  | nil => simp [valMSF]
  | cons x xs ih =>
    show valMSF (x :: (xs ++ [d])) = valMSF (x :: xs) * 10 + d
    simp only [valMSF, ih, List.length_append, List.length_cons, List.length_nil]
    ring

theorem valMSF_reverse (l : List Nat) : valMSF l.reverse = valLSF l := by
  induction l with
  | nil => rfl
  | cons d ds ih =>
    rw [List.reverse_cons, valMSF_append_singleton, ih]
    simp only [valLSF]
    ring

theorem valMSF_lt_pow (l : List Nat) (h : ∀ d ∈ l, d < 10) :
    valMSF l < 10 ^ l.length := by
  induction l with
  | nil => simp [valMSF]
  | cons d ds ih =>
    have hd : d < 10 := h d (List.mem_cons_self d ds)
    have hds := ih (fun x hx => h x (List.mem_cons_of_mem d hx))
    simp only [valMSF, List.length_cons]
    calc d * 10 ^ ds.length + valMSF ds
        < d * 10 ^ ds.length + 10 ^ ds.length := by omega
      _ = (d + 1) * 10 ^ ds.length := by ring
      _ ≤ 10 * 10 ^ ds.length := Nat.mul_le_mul_right _ (by omega)
      _ = 10 ^ (ds.length + 1) := by ring

theorem digitsLt_eq_decide_lt : ∀ (d1 d2 : List Nat), d1.length = d2.length →
    (∀ x ∈ d1, x < 10) → (∀ x ∈ d2, x < 10) →
    digitsLt d1 d2 = decide (valMSF d1 < valMSF d2) := by
  intro d1
  induction d1 with
  | nil =>
    intro d2 hlen _ _
    cases d2 with
    | nil => simp [digitsLt, valMSF]
    | cons b bs => simp at hlen
  | cons a as ih =>
    intro d2 h1len h1 h2
    cases d2 with
    | nil => simp at h1len
    | cons b bs =>
      have hlen : as.length = bs.length := by simpa using h1len
      have hva := valMSF_lt_pow as (fun x hx => h1 x (List.mem_cons_of_mem _ hx))
      have hvb := valMSF_lt_pow bs (fun x hx => h2 x (List.mem_cons_of_mem _ hx))
      have ha : a < 10 := h1 a (List.mem_cons_self _ _)
      have hb : b < 10 := h2 b (List.mem_cons_self _ _)
      rw [hlen] at hva
      simp only [digitsLt, valMSF, hlen]
      by_cases hab : a < b
      · rw [if_pos hab]
        have hlt : a * 10 ^ bs.length + valMSF as < b * 10 ^ bs.length + valMSF bs :=
          calc a * 10 ^ bs.length + valMSF as
              < a * 10 ^ bs.length + 10 ^ bs.length := by omega
            _ = (a + 1) * 10 ^ bs.length := by ring
            _ ≤ b * 10 ^ bs.length := Nat.mul_le_mul_right _ (by omega)
            _ ≤ b * 10 ^ bs.length + valMSF bs := Nat.le_add_right _ _
        exact (decide_eq_true hlt).symm
      · by_cases hba : b < a
        · rw [if_neg hab, if_pos hba]
          have hlt : b * 10 ^ bs.length + valMSF bs < a * 10 ^ bs.length + valMSF as :=
            calc b * 10 ^ bs.length + valMSF bs
                < b * 10 ^ bs.length + 10 ^ bs.length := by omega
              _ = (b + 1) * 10 ^ bs.length := by ring
              _ ≤ a * 10 ^ bs.length := Nat.mul_le_mul_right _ (by omega)
              _ ≤ a * 10 ^ bs.length + valMSF as := Nat.le_add_right _ _
          exact (decide_eq_false (by omega)).symm
        · have heq : a = b := by omega
          subst heq
          rw [if_neg hab, if_neg hba]
          rw [ih bs hlen (fun x hx => h1 x (List.mem_cons_of_mem _ hx))
            (fun x hx => h2 x (List.mem_cons_of_mem _ hx))]
          rw [decide_eq_decide]
          exact (Nat.add_lt_add_iff_left).symm

theorem valLSF_digitsAux : ∀ (fuel n : Nat), n ≤ fuel →
    valLSF (digitsAux fuel n) = n := by
  intro fuel
  induction fuel with
  | zero =>
    intro n hn
    have : n = 0 := by omega
    subst this
    rfl
  | succ f ih =>
    intro n hn
    cases n with
    | zero => rfl
    | succ m =>
      simp only [digitsAux, valLSF]
      rw [ih ((m + 1) / 10) (by omega)]
      omega

theorem digitsAux_lt_ten : ∀ (fuel n : Nat), ∀ d ∈ digitsAux fuel n, d < 10 := by
  intro fuel
  induction fuel with
  | zero =>
    intro n d hd
    cases n <;> simp [digitsAux] at hd
  | succ f ih =>
    intro n d hd
    cases n with
    | zero => simp [digitsAux] at hd
    | succ m =>
      simp only [digitsAux, List.mem_cons] at hd
      rcases hd with rfl | hd
      · omega
      · exact ih _ _ hd

theorem digitsAux_length_le_iff : ∀ (fuel n m : Nat), n ≤ fuel →
    ((digitsAux fuel n).length ≤ m ↔ n < 10 ^ m) := by
  intro fuel
  induction fuel with
  | zero =>
    intro n m hn
    have : n = 0 := by omega
    subst this
    simpa [digitsAux] using pow_pos (show 0 < 10 by norm_num) m
  | succ f ih =>
    intro n m hn
    cases n with
    | zero => simpa [digitsAux] using pow_pos (show 0 < 10 by norm_num) m
    | succ k =>
      cases m with
      | zero =>
        simp only [digitsAux, List.length_cons, pow_zero]
        omega
      | succ m' =>
        simp only [digitsAux, List.length_cons, Nat.add_le_add_iff_right]
        rw [ih ((k + 1) / 10) m' (by omega), pow_succ]
        exact Nat.div_lt_iff_lt_mul (by norm_num)

theorem decimalMSF_val {n : Nat} (hn : 0 < n) : valMSF (decimalMSF n) = n := by
  unfold decimalMSF
  rw [if_neg (by omega), valMSF_reverse]
  exact valLSF_digitsAux n n (le_refl n)

theorem decimalMSF_digits {n : Nat} : ∀ d ∈ decimalMSF n, d < 10 := by
  unfold decimalMSF
  intro d hd
  by_cases hn : n = 0
  · rw [if_pos hn] at hd
    simp at hd
    omega
  · rw [if_neg hn, List.mem_reverse] at hd
    exact digitsAux_lt_ten n n d hd

theorem decimalMSF_length {n k : Nat} (h1 : 10 ^ k ≤ n) (h2 : n < 10 ^ (k + 1)) :
    (decimalMSF n).length = k + 1 := by
  have hn : 0 < n := lt_of_lt_of_le (pow_pos (by norm_num) k) h1
  unfold decimalMSF
  rw [if_neg (by omega), List.length_reverse]
  have hle := (digitsAux_length_le_iff n n (k + 1) (le_refl n)).mpr h2
  have hgt : ¬((digitsAux n n).length ≤ k) := by
    intro hc
    have := (digitsAux_length_le_iff n n k (le_refl n)).mp hc
    omega
  omega

theorem jsStrLt_eq_decide_lt_of_same_digits {a b : Int} {k : Nat}
    (ha1 : (10:Int) ^ k ≤ a) (ha2 : a < (10:Int) ^ (k + 1))
    (hb1 : (10:Int) ^ k ≤ b) (hb2 : b < (10:Int) ^ (k + 1)) :
    jsStrLt a b = decide (a < b) := by
  have hcast : ∀ m : Nat, ((10 ^ m : Nat) : Int) = (10:Int) ^ m := by
    intro m
    push_cast
    ring
  have hpos : (0:Int) < (10:Int) ^ k := by positivity
  have ha0 : 0 < a := lt_of_lt_of_le hpos ha1
  have hb0 : 0 < b := lt_of_lt_of_le hpos hb1
  have haN1 : 10 ^ k ≤ a.toNat := by
    have h := ha1
    rw [← hcast k] at h
    omega
  have haN2 : a.toNat < 10 ^ (k + 1) := by
    have h := ha2
    rw [← hcast (k + 1)] at h
    omega
  have hbN1 : 10 ^ k ≤ b.toNat := by
    have h := hb1
    rw [← hcast k] at h
    omega
  have hbN2 : b.toNat < 10 ^ (k + 1) := by
    have h := hb2
    rw [← hcast (k + 1)] at h
    omega
  unfold jsStrLt
  rw [if_neg (by omega), if_neg (by omega)]
  rw [digitsLt_eq_decide_lt (decimalMSF a.toNat) (decimalMSF b.toNat)
    (by rw [decimalMSF_length haN1 haN2, decimalMSF_length hbN1 hbN2])
    decimalMSF_digits decimalMSF_digits]
  rw [decimalMSF_val (by omega), decimalMSF_val (by omega)]
  rw [decide_eq_decide]
  omega

theorem jsSort_eq_self_of_same_digits {A : List Int} {k : Nat}
    (hpair : A.Pairwise (· < ·))
    (hbound : ∀ y ∈ A, (10:Int) ^ k ≤ y ∧ y < (10:Int) ^ (k + 1)) :
    jsSort A = A := by
  apply List.mergeSort_of_sorted
  apply List.Pairwise.imp_of_mem ?_ hpair
  intro a b ha hb hab
  have hba : jsStrLt b a = decide (b < a) :=
    jsStrLt_eq_decide_lt_of_same_digits (hbound b hb).1 (hbound b hb).2
      (hbound a ha).1 (hbound a ha).2
  rw [hba, decide_eq_false (by omega)]
  rfl

/-- `f` exactly reproduces the allowed set over every year of the candidate
universe `[first, last]`. -/
def reproducesOn (first last : Int) (allowed : List Int) (f : YearFilter) : Prop :=
  ∀ y, first ≤ y → y ≤ last → isYearAllowedByFilter y (some f) = allowed.contains y

theorem fromOnly_reproduces_imp {first last : Int} {A : List Int}
    (hpair : A.Pairwise (· < ·)) (hsub : ∀ y ∈ A, first ≤ y ∧ y ≤ last)
    (hne : A ≠ []) {v : Int}
    (h : reproducesOn first last A (fromOnly v)) :
    A = intRange (listMin A) last := by
  have hminA := listMin_mem hne
  have hbounds := hsub _ hminA
  have hvmin : v ≤ listMin A := by
    have hh := h (listMin A) hbounds.1 hbounds.2
    rw [allows_fromOnly, contains_true_iff.mpr hminA] at hh
    exact of_decide_eq_true hh
  apply pairwise_lt_ext hpair (intRange_pairwise _ _)
  intro y
  rw [mem_intRange]
  constructor
  · intro hy
    exact ⟨listMin_le y hy, (hsub y hy).2⟩
  · rintro ⟨h1, h2⟩
    have hh := h y (le_trans hbounds.1 h1) h2
    rw [allows_fromOnly, decide_eq_true (by omega : v ≤ y)] at hh
    exact contains_true_iff.mp hh.symm

theorem toOnly_reproduces_imp {first last : Int} {A : List Int}
    (hpair : A.Pairwise (· < ·)) (hsub : ∀ y ∈ A, first ≤ y ∧ y ≤ last)
    (hne : A ≠ []) {v : Int}
    (h : reproducesOn first last A (toOnly v)) :
    A = intRange first (listMax A) := by
  have hmaxA := listMax_mem hne
  have hbounds := hsub _ hmaxA
  have hvmax : listMax A ≤ v := by
    have hh := h (listMax A) hbounds.1 hbounds.2
    rw [allows_toOnly, contains_true_iff.mpr hmaxA] at hh
    exact of_decide_eq_true hh
  apply pairwise_lt_ext hpair (intRange_pairwise _ _)
  intro y
  rw [mem_intRange]
  constructor
  · intro hy
    exact ⟨(hsub y hy).1, listMax_le y hy⟩
  · rintro ⟨h1, h2⟩
    have hh := h y h1 (le_trans h2 hbounds.2)
    rw [allows_toOnly, decide_eq_true (by omega : y ≤ v)] at hh
    exact contains_true_iff.mp hh.symm

theorem rangeFilter_reproduces_imp {first last : Int} {A : List Int}
    (hpair : A.Pairwise (· < ·)) (hsub : ∀ y ∈ A, first ≤ y ∧ y ≤ last)
    (hne : A ≠ []) {a b : Int} (hab : a ≤ b)
    (h : reproducesOn first last A (rangeFilter a b)) :
    A = intRange (listMin A) (listMax A) := by
  have hminA := listMin_mem hne
  have hmaxA := listMax_mem hne
  have hbmin := hsub _ hminA
  have hbmax := hsub _ hmaxA
  have hamin : a ≤ listMin A := by
    have hh := h (listMin A) hbmin.1 hbmin.2
    rw [allows_rangeFilter_and _ _ _ hab, contains_true_iff.mpr hminA] at hh
    simp at hh
    exact hh.1
  have hbmax2 : listMax A ≤ b := by
    have hh := h (listMax A) hbmax.1 hbmax.2
    rw [allows_rangeFilter_and _ _ _ hab, contains_true_iff.mpr hmaxA] at hh
    simp at hh
    exact hh.2
  apply pairwise_lt_ext hpair (intRange_pairwise _ _)
  intro y
  rw [mem_intRange]
  constructor
  · intro hy
    exact ⟨listMin_le y hy, listMax_le y hy⟩
  · rintro ⟨h1, h2⟩
    have hh := h y (le_trans hbmin.1 h1) (le_trans h2 hbmax.2)
    rw [allows_rangeFilter_and _ _ _ hab,
      decide_eq_true (by omega : a ≤ y), decide_eq_true (by omega : y ≤ b)] at hh
    exact contains_true_iff.mp hh.symm

unseal List.merge List.mergeSort in
set_option maxRecDepth 8000 in
/-- Claim C4 counterexample: at a universe spanning the 9999/10000
digit-length boundary, the contiguous range `{ from: 9999, to: 10001 }`
exactly reproduces the allowed set over the whole universe, yet the optimizer
returns the years-list form: the range check compares the decimal-string
sorted allowed list (`[10000, 10001, 9999]`) against the unsorted range list
and spuriously fails, so the search falls through to the OR construction. -/
theorem claim_C4_counterexample :
    ((optUniverse ⟨some 9998, some 10002⟩ 2025).all (fun y =>
      isYearAllowedByFilter y (some (rangeFilter 9999 10001)) ==
        (optAllowed [] [9998, 10002] ⟨some 9998, some 10002⟩ 2025).contains y)) = true ∧
    calculateOptimizedFilter [] [9998, 10002] ⟨some 9998, some 10002⟩ 2025 =
      some { «from» := none, «to» := none, years := some [9999, 10000, 10001] } :=
  ⟨by decide, by decide⟩

/-- Claim C4 (amended): once the optimizer reaches its representation search
(some evidence, a nonempty allowed set that is a proper subset of the
universe), it returns a filter that exactly reproduces the allowed set over
the candidate universe, and the from-only and to-only steps of the fixed
order are always honored: a reproducing from-only filter forces a from-only
result, and failing that a reproducing to-only filter forces a to-only
result.  The contiguous-range step is honored whenever every year of the
candidate universe has the same number of decimal digits — in particular for
all real model years, which have four — because the source's range check
compares the decimal-string-sorted allowed list against the unsorted range
list; on such universes a reproducing contiguous range forces the range form,
so the OR form is returned only when no simpler representation reproduces the
set. -/
theorem claim_C4_minimal_representation {s u : List Int} {gs : GenerationSet}
    {cy : Int}
    (hev : ¬((optSupported s).length = 0 ∧ u.length = 0))
    (hAne : optAllowed s u gs cy ≠ [])
    (hAneU : optAllowed s u gs cy ≠ optUniverse gs cy) :
    ∃ f, calculateOptimizedFilter s u gs cy = some f ∧
      reproducesOn (optFirstYear gs) (optLastYear gs cy) (optAllowed s u gs cy) f ∧
      ((∃ v, reproducesOn (optFirstYear gs) (optLastYear gs cy)
          (optAllowed s u gs cy) (fromOnly v)) → ∃ v, f = fromOnly v) ∧
      ((¬∃ v, reproducesOn (optFirstYear gs) (optLastYear gs cy)
          (optAllowed s u gs cy) (fromOnly v)) →
        (∃ v, reproducesOn (optFirstYear gs) (optLastYear gs cy)
          (optAllowed s u gs cy) (toOnly v)) → ∃ v, f = toOnly v) ∧
      ((∃ k : Nat, (10:Int) ^ k ≤ optFirstYear gs ∧
          optLastYear gs cy < (10:Int) ^ (k + 1)) →
        (¬∃ v, reproducesOn (optFirstYear gs) (optLastYear gs cy)
          (optAllowed s u gs cy) (fromOnly v)) →
        (¬∃ v, reproducesOn (optFirstYear gs) (optLastYear gs cy)
          (optAllowed s u gs cy) (toOnly v)) →
        (∃ a b, a ≤ b ∧ reproducesOn (optFirstYear gs) (optLastYear gs cy)
          (optAllowed s u gs cy) (rangeFilter a b)) →
        ∃ a b, a ≤ b ∧ f = rangeFilter a b) := by
  have hpair := optAllowed_pairwise s u gs cy
  have hsub : ∀ y ∈ optAllowed s u gs cy,
      optFirstYear gs ≤ y ∧ y ≤ optLastYear gs cy := by
    intro y hy
    have := (optAllowed_sublist s u gs cy).subset hy
    rw [optUniverse, mem_intRange] at this
    exact this
  have hAneU' : optAllowed s u gs cy ≠
      intRange (optFirstYear gs) (optLastYear gs cy) := hAneU
  have hred : calculateOptimizedFilter s u gs cy =
      buildRepr (optFirstYear gs) (optLastYear gs cy) (optAllowed s u gs cy) := by
    unfold calculateOptimizedFilter
    rw [if_neg hev,
      if_neg (fun hlen =>
        hAneU ((optAllowed_sublist s u gs cy).eq_of_length hlen)),
      if_neg (fun hz => hAne (List.length_eq_zero.mp hz))]
  by_cases hna : optAllowed s u gs cy =
      intRange (listMin (optAllowed s u gs cy)) (optLastYear gs cy)
  · have hrep : reproducesOn (optFirstYear gs) (optLastYear gs cy)
        (optAllowed s u gs cy) (fromOnly (listMin (optAllowed s u gs cy))) := by
      intro y hy1 hy2
      rw [allows_fromOnly, contains_eq_decide_mem]
      have hm : y ∈ optAllowed s u gs cy ↔
          listMin (optAllowed s u gs cy) ≤ y ∧ y ≤ optLastYear gs cy := by
        conv_lhs => rw [hna]
        exact mem_intRange
      by_cases h1 : listMin (optAllowed s u gs cy) ≤ y <;> simp [h1, hm, hy2]
    refine ⟨_, by rw [hred, buildRepr_eq_fromOnly hna], hrep, ?_, ?_, ?_⟩
    · intro _
      exact ⟨_, rfl⟩
    · intro hnf _
      exact absurd ⟨_, hrep⟩ hnf
    · intro _ hnf _ _
      exact absurd ⟨_, hrep⟩ hnf
  · by_cases hnb : optAllowed s u gs cy =
        intRange (optFirstYear gs) (listMax (optAllowed s u gs cy))
    · have hrep : reproducesOn (optFirstYear gs) (optLastYear gs cy)
          (optAllowed s u gs cy) (toOnly (listMax (optAllowed s u gs cy))) := by
        intro y hy1 hy2
        rw [allows_toOnly, contains_eq_decide_mem]
        have hm : y ∈ optAllowed s u gs cy ↔
            optFirstYear gs ≤ y ∧ y ≤ listMax (optAllowed s u gs cy) := by
          conv_lhs => rw [hnb]
          exact mem_intRange
        by_cases h1 : y ≤ listMax (optAllowed s u gs cy) <;> simp [h1, hm, hy1]
      refine ⟨_, by rw [hred, buildRepr_eq_toOnly hna hnb], hrep, ?_, ?_, ?_⟩
      · rintro ⟨v, hv⟩
        exact absurd (fromOnly_reproduces_imp hpair hsub hAne hv) hna
      · intro _ _
        exact ⟨_, rfl⟩
      · intro _ _ hnt _
        exact absurd ⟨_, hrep⟩ hnt
    · by_cases hnc : jsSort (optAllowed s u gs cy) =
          intRange (listMin (optAllowed s u gs cy)) (listMax (optAllowed s u gs cy))
      · have hAeq : optAllowed s u gs cy =
            intRange (listMin (optAllowed s u gs cy)) (listMax (optAllowed s u gs cy)) :=
          eq_of_jsSort_eq hpair (intRange_pairwise _ _) hnc
        have hne2 : ¬(listMin (optAllowed s u gs cy) = optFirstYear gs ∧
            listMax (optAllowed s u gs cy) = optLastYear gs cy) := by
          rintro ⟨he1, he2⟩
          rw [he1, he2] at hAeq
          exact hAneU' hAeq
        have hminmax := listMin_le_listMax hAne
        have hrep : reproducesOn (optFirstYear gs) (optLastYear gs cy)
            (optAllowed s u gs cy)
            (rangeFilter (listMin (optAllowed s u gs cy))
              (listMax (optAllowed s u gs cy))) := by
          intro y hy1 hy2
          rw [allows_rangeFilter_and _ _ _ hminmax, contains_eq_decide_mem]
          have hm : y ∈ optAllowed s u gs cy ↔
              listMin (optAllowed s u gs cy) ≤ y ∧
                y ≤ listMax (optAllowed s u gs cy) := by
            conv_lhs => rw [hAeq]
            exact mem_intRange
          by_cases h1 : listMin (optAllowed s u gs cy) ≤ y <;>
            by_cases h2 : y ≤ listMax (optAllowed s u gs cy) <;>
              simp [h1, h2, hm]
        refine ⟨_, by rw [hred, buildRepr_eq_range hna hnb hnc hne2], hrep, ?_, ?_, ?_⟩
        · rintro ⟨v, hv⟩
          exact absurd (fromOnly_reproduces_imp hpair hsub hAne hv) hna
        · rintro _ ⟨v, hv⟩
          exact absurd (toOnly_reproduces_imp hpair hsub hAne hv) hnb
        · intro _ _ _ _
          exact ⟨_, _, hminmax, rfl⟩
      · obtain ⟨f, hf, hex⟩ :=
          buildRepr_or_exact hpair hsub hAne hAneU' hna hnb hnc
        refine ⟨f, by rw [hred, hf], hex, ?_, ?_, ?_⟩
        · rintro ⟨v, hv⟩
          exact absurd (fromOnly_reproduces_imp hpair hsub hAne hv) hna
        · rintro _ ⟨v, hv⟩
          exact absurd (toOnly_reproduces_imp hpair hsub hAne hv) hnb
        · rintro ⟨k, hk1, hk2⟩ _ _ ⟨a, b, hab, hv⟩
          have hAeq := rangeFilter_reproduces_imp hpair hsub hAne hab hv
          have hself : jsSort (optAllowed s u gs cy) = optAllowed s u gs cy :=
            jsSort_eq_self_of_same_digits hpair (fun y hy =>
              ⟨le_trans hk1 (hsub y hy).1, lt_of_le_of_lt (hsub y hy).2 hk2⟩)
          exact absurd (hself.trans hAeq) hnc

set_option maxRecDepth 8000 in
/-- Witness for the amended C4 at a concrete four-digit input that lands in
the from-only branch. -/
theorem claim_C4_witness :
    ∃ f, calculateOptimizedFilter [2018, 2019, 2020, 2021, 2022, 2023, 2024]
        [2007, 2008, 2009, 2010, 2011, 2012, 2013, 2014, 2015, 2016, 2017] (⟨some 2007, some 2030⟩ : GenerationSet) 2025 = some f ∧
      reproducesOn (optFirstYear (⟨some 2007, some 2030⟩ : GenerationSet)) (optLastYear (⟨some 2007, some 2030⟩ : GenerationSet) 2025)
          (optAllowed [2018, 2019, 2020, 2021, 2022, 2023, 2024]
            [2007, 2008, 2009, 2010, 2011, 2012, 2013, 2014, 2015, 2016, 2017] (⟨some 2007, some 2030⟩ : GenerationSet) 2025) f ∧
      ((∃ v, reproducesOn (optFirstYear (⟨some 2007, some 2030⟩ : GenerationSet)) (optLastYear (⟨some 2007, some 2030⟩ : GenerationSet) 2025)
          (optAllowed [2018, 2019, 2020, 2021, 2022, 2023, 2024]
            [2007, 2008, 2009, 2010, 2011, 2012, 2013, 2014, 2015, 2016, 2017] (⟨some 2007, some 2030⟩ : GenerationSet) 2025) (fromOnly v)) → ∃ v, f = fromOnly v) ∧
      ((¬∃ v, reproducesOn (optFirstYear (⟨some 2007, some 2030⟩ : GenerationSet)) (optLastYear (⟨some 2007, some 2030⟩ : GenerationSet) 2025)
          (optAllowed [2018, 2019, 2020, 2021, 2022, 2023, 2024]
            [2007, 2008, 2009, 2010, 2011, 2012, 2013, 2014, 2015, 2016, 2017] (⟨some 2007, some 2030⟩ : GenerationSet) 2025) (fromOnly v)) →
        (∃ v, reproducesOn (optFirstYear (⟨some 2007, some 2030⟩ : GenerationSet)) (optLastYear (⟨some 2007, some 2030⟩ : GenerationSet) 2025)
          (optAllowed [2018, 2019, 2020, 2021, 2022, 2023, 2024]
            [2007, 2008, 2009, 2010, 2011, 2012, 2013, 2014, 2015, 2016, 2017] (⟨some 2007, some 2030⟩ : GenerationSet) 2025) (toOnly v)) → ∃ v, f = toOnly v) ∧
      ((∃ k : Nat, (10:Int) ^ k ≤ optFirstYear (⟨some 2007, some 2030⟩ : GenerationSet) ∧
          optLastYear (⟨some 2007, some 2030⟩ : GenerationSet) 2025 < (10:Int) ^ (k + 1)) →
        (¬∃ v, reproducesOn (optFirstYear (⟨some 2007, some 2030⟩ : GenerationSet)) (optLastYear (⟨some 2007, some 2030⟩ : GenerationSet) 2025)
          (optAllowed [2018, 2019, 2020, 2021, 2022, 2023, 2024]
            [2007, 2008, 2009, 2010, 2011, 2012, 2013, 2014, 2015, 2016, 2017] (⟨some 2007, some 2030⟩ : GenerationSet) 2025) (fromOnly v)) →
        (¬∃ v, reproducesOn (optFirstYear (⟨some 2007, some 2030⟩ : GenerationSet)) (optLastYear (⟨some 2007, some 2030⟩ : GenerationSet) 2025)
          (optAllowed [2018, 2019, 2020, 2021, 2022, 2023, 2024]
            [2007, 2008, 2009, 2010, 2011, 2012, 2013, 2014, 2015, 2016, 2017] (⟨some 2007, some 2030⟩ : GenerationSet) 2025) (toOnly v)) →
        (∃ a b, a ≤ b ∧ reproducesOn (optFirstYear (⟨some 2007, some 2030⟩ : GenerationSet)) (optLastYear (⟨some 2007, some 2030⟩ : GenerationSet) 2025)
          (optAllowed [2018, 2019, 2020, 2021, 2022, 2023, 2024]
            [2007, 2008, 2009, 2010, 2011, 2012, 2013, 2014, 2015, 2016, 2017] (⟨some 2007, some 2030⟩ : GenerationSet) 2025) (rangeFilter a b)) →
        ∃ a b, a ≤ b ∧ f = rangeFilter a b) :=
  claim_C4_minimal_representation (by decide) (by decide) (by decide)

end OBDb
